import Mathlib

/-! uthread: thread table, creation, exit and join, destruction and the reaper

A shallow embedding of `uthread.c`, `uthread_sched.c` and `uthread_mtx.c`.

* The global variables of `uthread.c` and `uthread_sched.c` are the fields of `World`.
* A pointer to a `uthread_t` is the index of the slot it points to (`none` is `NULL`);
  every `uthread_t` of the program lives in the table `uthreads`.
* `uthread_id_t` is a signed C integer (the code uses `-1` as a sentinel), modelled by `Int`.
* A `void *` value is carried as an integer, `NULL` being `0`.
* An out-parameter `T *p` is passed as the content of the cell it points to
  (`none` when the pointer is `NULL`) and the new content is returned with the result.
* A C function that can stop the process, or leave defined behaviour, returns a `Result`.
-/

namespace Uthread

/-- The thread states named by `uthread.c` and by the comments of `uthread_sched.c`. -/
inductive uthread_state_t where
  | UT_NO_STATE
  | UT_ON_CPU
  | UT_RUNNABLE
  | UT_WAIT
  | UT_ZOMBIE
  | UT_TRANSITION
  deriving DecidableEq, Repr

/-- The two values of `ut_detach_state`. -/
inductive uthread_detach_t where
  | UT_DETACHABLE
  | UT_JOINABLE
  deriving DecidableEq, Repr

open uthread_state_t uthread_detach_t

/-- A saved execution context (`uthread_ctx_t`); its content is opaque to `uthread.c`.
`captured` is the result of `uthread_getcontext`, `made` the one of `uthread_makecontext`. -/
inductive uthread_ctx_t where
  | unset
  | captured
  | made (stack : Nat) (size : Nat) (func : Nat) (arg1 : Int) (arg2 : Option Nat)
  deriving DecidableEq, Repr

/-- The thread control block `uthread_t`, with the fields `uthread.c` reads and writes.
`ut_link` carries no data of its own: membership of a queue is the queue's content. -/
structure uthread_t where
  ut_ctx : uthread_ctx_t
  ut_stack : Option Nat
  ut_id : Int
  ut_state : uthread_state_t
  ut_prio : Int
  ut_errno : Int
  ut_has_exited : Int
  ut_exit : Int
  ut_detach_state : uthread_detach_t
  ut_waiter : Option Nat
  ut_no_preempt_count : Int
  deriving DecidableEq, Repr

/-- Modelled from the spec: the type `uthread_mtx_t` is declared in a header that is not
among the sources. Spec §3: "an owner reference (TCB or none) plus a FIFO wait queue of blocked
TCBs". -/
structure uthread_mtx_t where
  m_owner : Option Nat
  m_waiters : List Nat
  deriving DecidableEq, Repr

/-- Modelled from the spec: the type `uthread_cond_t` is declared in a header that is not
among the sources. Spec §3: "a FIFO wait queue of blocked TCBs". -/
structure uthread_cond_t where
  uc_waiters : List Nat
  deriving DecidableEq, Repr

/-- The constants of the headers, which are not among the sources. `state_code` and
`UT_DETACHABLE_code` are the integer values the headers give to the state enumerators and
to `UT_DETACHABLE`; they matter only where the code compares a state with
`UT_DETACHABLE`. -/
structure Config where
  UTH_MAX_UTHREADS : Nat
  UTH_MAXPRIO : Int
  UTH_STACK_SIZE : Nat
  state_code : uthread_state_t → Int
  UT_DETACHABLE_code : Int

/-- The global state: the variables of `uthread.c` (`ut_curthr`, `uthreads`, `reap_queue`,
the reaper's id, `reap_mtx`, `reap_cond`), `runq_table` of `uthread_sched.c`, and the
lines written to the diagnostic stream. -/
structure World where
  uthreads : List uthread_t
  ut_curthr : Option Nat
  reap_queue : List Nat
  thr_id : Int
  reap_mtx : uthread_mtx_t
  reap_cond : uthread_cond_t
  runq_table : List (List Nat)
  diag : List String
  deriving DecidableEq, Repr

/-- Ways of leaving defined behaviour. -/
inductive Fault where
  | null_deref
  | out_of_bounds (i : Int)
  deriving DecidableEq, Repr

/-- Outcome of a C function: it returns `v` in state `w`, or the process is aborted in
state `w` (`PANIC`, failed `assert`), or the function accesses memory it must not. -/
inductive Result (α : Type) where
  | ret (v : α) (w : World)
  | abort (w : World)
  | undef (f : Fault) (w : World)
  deriving DecidableEq, Repr

/-- Sequencing: the rest of the function runs only if the call returned. -/
def Result.bind {α β : Type} (r : Result α) (k : α → World → Result β) : Result β :=
  match r with
  | .ret v w => k v w
  | .abort w => .abort w
  | .undef f w => .undef f w

/-- The slot `uthreads[i]`. -/
def World.tcb (w : World) (i : Nat) : Option uthread_t := w.uthreads[i]?

/-- The element `uthreads[uid]` for a signed index: no element outside the table. -/
def World.slot (w : World) (uid : Int) : Option uthread_t :=
  if 0 ≤ uid then w.tcb uid.toNat else none

/-- The assignment `uthreads[i] = t`. -/
def World.store (w : World) (i : Nat) (t : uthread_t) : World :=
  { w with uthreads := w.uthreads.set i t }

/-- Modelled from the spec: the header that defines `Function_you_need_to_implement` is
not among the sources. Spec §7 names the fatal conditions (no runnable thread at a switch, an
operation on a TCB that violates an invariant) and an unwritten function body is not one
of them, so it reports its message on the diagnostic stream and the function goes on to
the statement that follows it (`return 0;`, `PANIC(...)`). -/
def Function_you_need_to_implement (msg : String) (w : World) : World :=
  { w with diag := w.diag ++ [msg] }

/-- Modelled from the spec: the header that defines `PANIC` is not among the sources. Spec §7:
"fatal conditions abort the whole process with a diagnostic message". -/
def PANIC {α : Type} (msg : String) (w : World) : Result α :=
  .abort { w with diag := w.diag ++ [msg] }

/-- The C `assert`: the process is aborted when the condition is false. -/
def c_assert (c : Bool) (w : World) : Result Unit :=
  if c then .ret () w else .abort w

/-! ## uthread_sched.c -/

/-- `uthread_yield` (uthread_sched.c:42). -/
def uthread_yield (w : World) : World :=
  Function_you_need_to_implement "UTHREADS: uthread_yield" w

/-- `uthread_wake` (uthread_sched.c:53). -/
def uthread_wake (_uthr : Option Nat) (w : World) : World :=
  Function_you_need_to_implement "UTHREADS: uthread_wake" w

/-- `uthread_setprio` (uthread_sched.c:66). -/
def uthread_setprio (_id : Int) (_prio : Int) (w : World) : Int × World :=
  (0, Function_you_need_to_implement "UTHREADS: uthread_setprio" w)

/-- `uthread_switch` (uthread_sched.c:82). -/
def uthread_switch (w : World) : Result Unit :=
  PANIC "no runnable threads" (Function_you_need_to_implement "UTHREADS: uthread_switch" w)

/-! ## uthread_mtx.c -/

/-- `uthread_mtx_init` (uthread_mtx.c:25). -/
def uthread_mtx_init (mtx : uthread_mtx_t) (w : World) : uthread_mtx_t × World :=
  (mtx, Function_you_need_to_implement "UTHREADS: uthread_mtx_init" w)

/-- `uthread_mtx_lock` (uthread_mtx.c:35). -/
def uthread_mtx_lock (mtx : uthread_mtx_t) (w : World) : uthread_mtx_t × World :=
  (mtx, Function_you_need_to_implement "UTHREADS: uthread_mtx_lock" w)

/-- `uthread_mtx_trylock` (uthread_mtx.c:45). -/
def uthread_mtx_trylock (mtx : uthread_mtx_t) (w : World) : Int × uthread_mtx_t × World :=
  (0, mtx, Function_you_need_to_implement "UTHREADS: uthread_mtx_trylock" w)

/-- `uthread_mtx_unlock` (uthread_mtx.c:55). -/
def uthread_mtx_unlock (mtx : uthread_mtx_t) (w : World) : uthread_mtx_t × World :=
  (mtx, Function_you_need_to_implement "UTHREADS: uthread_mtx_unlock" w)

/-- Modelled from the spec: `uthread_cond_signal` is defined in a file that is not among
the sources. Spec §4.4: "`signal` wakes exactly one waiter (FIFO); if no waiter, it is a no-op";
the waking is done by `uthread_wake` of uthread_sched.c. -/
def uthread_cond_signal (cond : uthread_cond_t) (w : World) : uthread_cond_t × World :=
  match cond.uc_waiters with
  | [] => (cond, w)
  | t :: rest => ({ cond with uc_waiters := rest }, uthread_wake (some t) w)

/-! ## uthread.c -/

/-- The loop of `uthread_alloc`: `i` is the loop variable and `remaining` the number of
iterations left, `UTH_MAX_UTHREADS - i`. -/
def uthread_alloc_loop (w : World) : Nat → Nat → Result Int
  | 0, _ => .ret (-1) w
  | remaining + 1, i =>
    match w.tcb i with
    | none => .undef (.out_of_bounds i) w
    | some t =>
      if t.ut_state = UT_NO_STATE then .ret (i : Int) w
      else uthread_alloc_loop w remaining (i + 1)

/-- `uthread_alloc` (uthread.c:204). -/
def uthread_alloc (cfg : Config) (w : World) : Result Int :=
  uthread_alloc_loop w cfg.UTH_MAX_UTHREADS 0

/-- `uthread_create` (uthread.c:95). `stack` is what `alloc_stack` (`malloc`) returns on
this call. -/
def uthread_create (cfg : Config) (uidp : Option Int) (func : Nat) (arg1 : Int)
    (arg2 : Option Nat) (prio : Int) (stack : Option Nat) (w : World) :
    Result (Int × Option Int) :=
  (uthread_alloc cfg w).bind fun id w =>
    if id = -1 then .ret (-1, uidp) w
    else
      match uidp with
      | none => .undef .null_deref w
      | some _ =>
        match w.slot id with
        | none => .undef (.out_of_bounds id) w
        | some thr =>
          let thr := { thr with ut_stack := stack }
          match stack with
          | none => .ret (-1, some id) (w.store id.toNat thr)
          | some s =>
            let thr := { thr with
              ut_ctx := .made s cfg.UTH_STACK_SIZE func arg1 arg2
              ut_id := id
              ut_state := UT_RUNNABLE
              ut_errno := 0
              ut_has_exited := 0
              ut_exit := 0
              ut_detach_state := UT_DETACHABLE
              ut_waiter := none
              ut_prio := -1 }
            let w := w.store id.toNat thr
            let (_, w) := uthread_setprio thr.ut_id prio w
            .ret (0, some id) w

/-- `make_reapable` (uthread.c:319); `uth` is the slot the argument points to. -/
def make_reapable (uth : Nat) (w : World) : Result Unit :=
  match w.ut_curthr with
  | none => .undef .null_deref w
  | some c =>
    match w.tcb c with
    | none => .undef (.out_of_bounds c) w
    | some cur =>
      (c_assert (cur.ut_state != UT_ZOMBIE) w).bind fun _ w =>
        let (m, w) := uthread_mtx_lock w.reap_mtx w
        let w := { w with reap_mtx := m }
        match w.tcb uth with
        | none => .undef (.out_of_bounds uth) w
        | some t =>
          let w := w.store uth { t with ut_state := UT_ZOMBIE }
          let w := { w with reap_queue := w.reap_queue ++ [uth] }
          let (cv, w) := uthread_cond_signal w.reap_cond w
          let w := { w with reap_cond := cv }
          let (m, w) := uthread_mtx_unlock w.reap_mtx w
          .ret () { w with reap_mtx := m }

/-- `uthread_exit` (uthread.c:134). -/
def uthread_exit (cfg : Config) (status : Int) (w : World) : Result Unit :=
  match w.ut_curthr with
  | none => .undef .null_deref w
  | some c =>
    match w.tcb c with
    | none => .undef (.out_of_bounds c) w
    | some cur =>
      let cur := { cur with ut_has_exited := 1, ut_exit := status }
      let w := w.store c cur
      let r : Result Unit :=
        if cur.ut_waiter ≠ none then
          if cfg.state_code cur.ut_state = cfg.UT_DETACHABLE_code then
            make_reapable c w
          else if cur.ut_waiter ≠ none then
            .ret () (uthread_wake cur.ut_waiter w)
          else .ret () w
        else .ret () w
      r.bind fun _ w =>
        match w.tcb c with
        | none => .undef (.out_of_bounds c) w
        | some cur => uthread_switch (w.store c { cur with ut_state := UT_WAIT })

/-- `uthread_join` (uthread.c:164). -/
def uthread_join (cfg : Config) (uid : Int) (return_value : Option Int) (w : World) :
    Result (Int × Option Int) :=
  if uid ≥ (cfg.UTH_MAX_UTHREADS : Int) then .ret (-1, return_value) w
  else
    match w.slot uid with
    | none => .undef (.out_of_bounds uid) w
    | some thr =>
      if thr.ut_detach_state = UT_DETACHABLE then
        .ret (-1, return_value.map fun _ => 0) w
      else if thr.ut_waiter ≠ none ∨ thr.ut_state = UT_NO_STATE then
        .ret (-1, return_value) w
      else
        let r : Result Unit :=
          if thr.ut_state ≠ UT_ZOMBIE then
            let w := w.store uid.toNat { thr with ut_waiter := w.ut_curthr }
            match w.ut_curthr with
            | none => .undef .null_deref w
            | some c =>
              match w.tcb c with
              | none => .undef (.out_of_bounds c) w
              | some cur => uthread_switch (w.store c { cur with ut_state := UT_WAIT })
          else .ret () w
        r.bind fun _ w =>
          match return_value, w.tcb uid.toNat with
          | none, _ => .undef .null_deref w
          | some _, none => .undef (.out_of_bounds uid) w
          | some _, some thr =>
            (make_reapable uid.toNat w).bind fun _ w => .ret (0, some thr.ut_exit) w

/-- `uthread_self` (uthread.c:192). -/
def uthread_self (w : World) : Result Int :=
  (c_assert (w.ut_curthr != none) w).bind fun _ w =>
    match w.ut_curthr with
    | none => .undef .null_deref w
    | some c =>
      match w.tcb c with
      | none => .undef (.out_of_bounds c) w
      | some cur => .ret cur.ut_id w

/-- `uthread_destroy` (uthread.c:216); `free_stack` releases memory outside the model. -/
def uthread_destroy (uth : Nat) (w : World) : Result Unit :=
  match w.tcb uth with
  | none => .undef (.out_of_bounds uth) w
  | some t =>
    (c_assert (t.ut_state == UT_ZOMBIE) w).bind fun _ w =>
      .ret () (w.store uth { t with ut_state := UT_NO_STATE, ut_has_exited := 1, ut_waiter := none })

/-- The loop of `uthread_init`: `i` is the loop variable and `remaining` the number of
iterations left. -/
def uthread_init_loop : Nat → Nat → World → Result Unit
  | 0, _, w => .ret () w
  | remaining + 1, i, w =>
    match w.tcb i with
    | none => .undef (.out_of_bounds i) w
    | some t =>
      uthread_init_loop remaining (i + 1)
        (w.store i { t with ut_state := UT_NO_STATE, ut_id := (i : Int) })

/-- `uthread_sched_init` (uthread_sched.c:89): one empty queue per priority. -/
def uthread_sched_init (cfg : Config) (w : World) : World :=
  { w with runq_table := List.replicate (cfg.UTH_MAXPRIO + 1).toNat [] }

/-- Modelled from the spec: `uthread_cond_init` is defined in a file that is not among
the sources. Spec §4.4 names `init`; the queue of a fresh condition variable is empty. -/
def uthread_cond_init (_cond : uthread_cond_t) (w : World) : uthread_cond_t × World :=
  ({ uc_waiters := [] }, w)

/-- `_init1` (uthread.c:242), whose name is partly elided in the source. -/
def init1 (w : World) : World :=
  let w := { w with reap_queue := [] }
  let (m, w) := uthread_mtx_init w.reap_mtx w
  let w := { w with reap_mtx := m }
  let (cv, w) := uthread_cond_init w.reap_cond w
  { w with reap_cond := cv }

/-- `create_first_thr` (uthread.c:302). -/
def create_first_thr (cfg : Config) (w : World) : Result Unit :=
  let w := { w with ut_curthr := some 0 }
  match w.tcb 0 with
  | none => .undef (.out_of_bounds 0) w
  | some t =>
    .ret () (w.store 0 { t with
      ut_ctx := .captured
      ut_prio := cfg.UTH_MAXPRIO
      ut_errno := 0
      ut_has_exited := 0
      ut_no_preempt_count := 0
      ut_detach_state := UT_DETACHABLE
      ut_exit := 0
      ut_waiter := none
      ut_state := UT_ON_CPU })

/-- `_init2` (uthread.c:248), whose name is partly elided in the source. `reaper` stands
for the address of the reaper's function and `stack` is what `malloc` returns. -/
def init2 (cfg : Config) (reaper : Nat) (stack : Option Nat) (w : World) : Result Unit :=
  (uthread_create cfg (some w.thr_id) reaper 0 none cfg.UTH_MAXPRIO stack w).bind fun r w =>
    let w := { w with thr_id := r.2.getD w.thr_id }
    c_assert (w.thr_id != -1) w

/-- `uthread_init` (uthread.c:65). -/
def uthread_init (cfg : Config) (reaper : Nat) (stack : Option Nat) (w : World) :
    Result Unit :=
  (uthread_init_loop cfg.UTH_MAX_UTHREADS 0 w).bind fun _ w =>
    let w := uthread_sched_init cfg w
    let w := init1 w
    (create_first_thr cfg w).bind fun _ w => init2 cfg reaper stack w

/-! ## The reaper (uthread.c:265) -/

/-- How a pass of the reaper's `while(1)` loop ends: with `exit(status)`, which ends the
process, or at the head of the loop again. -/
inductive reaper_step where
  | process_exit (status : Int)
  | wait_again
  deriving DecidableEq, Repr

/-- The `list_iterate` loop of the reaper (uthread.c:276): every thread of the reap queue
is taken off the queue (`list_remove`) and destroyed. The first argument is the part of
the queue still to visit. -/
def reaper_drain_from : List Nat → World → Result Unit
  | [], w => .ret () w
  | thread :: rest, w =>
    (uthread_destroy thread { w with reap_queue := rest }).bind fun _ w =>
      reaper_drain_from rest w

/-- The drain of the whole reap queue. -/
def reaper_drain (w : World) : Result Unit :=
  reaper_drain_from w.reap_queue w

/-- The `for` loop of the reaper (uthread.c:282): `th` is the loop variable, `remaining`
the number of iterations left; the value returned is `th` when the loop is left. The
table is read only when `th != _thr_id` (`&&` evaluates its right side on demand). -/
def reaper_scan : Nat → Nat → World → Result Nat
  | 0, th, w => .ret th w
  | remaining + 1, th, w =>
    if (th : Int) ≠ w.thr_id then
      match w.tcb th with
      | none => .undef (.out_of_bounds th) w
      | some t =>
        if t.ut_state ≠ UT_NO_STATE then .ret th w
        else reaper_scan remaining (th + 1) w
    else reaper_scan remaining (th + 1) w

/-- One pass of the reaper's `while(1)` loop from the point where the reap queue has been
found non-empty (the wait before it, `uthread_cond_wait`, is in a file that is not among
the sources): drain, scan, and `exit(0)` when the scan ran to the end of the table. -/
def reaper_pass (cfg : Config) (w : World) : Result reaper_step :=
  (reaper_drain w).bind fun _ w =>
    (reaper_scan cfg.UTH_MAX_UTHREADS 0 w).bind fun th w =>
      if th = cfg.UTH_MAX_UTHREADS then
        .ret (.process_exit 0)
          { w with diag := (w.diag ++ ["uthreads: no more threads."]) ++ ["uthreads: bye!"] }
      else .ret .wait_again w

/-! ## States of a run -/

/-- The state a call leaves behind: the one it returns in, or the one in which it stops
the process; none when the call leaves defined behaviour. -/
def Result.state {α : Type} : Result α → Option World
  | .ret _ w => some w
  | .abort w => some w
  | .undef _ _ => none

/-- The states reached from `uthread_init` by calls of `uthread_create`, `uthread_exit`
and `uthread_join`, with any arguments. -/
inductive Reachable (cfg : Config) : World → Prop where
  | init (reaper : Nat) (stack : Option Nat) (boot w : World) :
      uthread_init cfg reaper stack boot = .ret () w → Reachable cfg w
  | create (uidp : Option Int) (func : Nat) (arg1 : Int) (arg2 : Option Nat) (prio : Int)
      (stack : Option Nat) (w w1 : World) :
      Reachable cfg w →
      (uthread_create cfg uidp func arg1 arg2 prio stack w).state = some w1 →
      Reachable cfg w1
  | exit (status : Int) (w w1 : World) :
      Reachable cfg w → (uthread_exit cfg status w).state = some w1 → Reachable cfg w1
  | join (uid : Int) (return_value : Option Int) (w w1 : World) :
      Reachable cfg w → (uthread_join cfg uid return_value w).state = some w1 →
      Reachable cfg w1

/-- The states reached from `uthread_init`, run on a table of `UTH_MAX_UTHREADS` slots,
by calls of `uthread_create` and by calls of `uthread_join` that return `-1`. -/
inductive ReachableNoSwitch (cfg : Config) : World → Prop where
  | init (reaper : Nat) (stack : Option Nat) (boot w : World) :
      boot.uthreads.length = cfg.UTH_MAX_UTHREADS →
      uthread_init cfg reaper stack boot = .ret () w → ReachableNoSwitch cfg w
  | create (uidp : Option Int) (func : Nat) (arg1 : Int) (arg2 : Option Nat) (prio : Int)
      (stack : Option Nat) (w w1 : World) :
      ReachableNoSwitch cfg w →
      (uthread_create cfg uidp func arg1 arg2 prio stack w).state = some w1 →
      ReachableNoSwitch cfg w1
  | join_error (uid : Int) (return_value rv1 : Option Int) (w w1 : World) :
      ReachableNoSwitch cfg w →
      uthread_join cfg uid return_value w = .ret (-1, rv1) w1 →
      ReachableNoSwitch cfg w1

/-- The invariant `uthreads[i].ut_id == i` for every slot `i` in `[0, UTH_MAX_UTHREADS)`. -/
def ids_ok (cfg : Config) (w : World) : Prop :=
  ∀ i t, i < cfg.UTH_MAX_UTHREADS → w.tcb i = some t → t.ut_id = (i : Int)

/-- What holds from `uthread_init` on, whatever is called: the reap queue is empty, the
current thread is a live thread without waiter, and every live thread of the slots below
`UTH_MAX_UTHREADS` is detachable and has no waiter. -/
def detached_only (cfg : Config) (w : World) : Prop :=
  w.reap_queue = [] ∧
  (∃ c cur, w.ut_curthr = some c ∧ w.tcb c = some cur ∧
    cur.ut_state ≠ UT_NO_STATE ∧ cur.ut_waiter = none) ∧
  ∀ i t, i < cfg.UTH_MAX_UTHREADS → w.tcb i = some t → t.ut_state ≠ UT_NO_STATE →
    t.ut_detach_state = UT_DETACHABLE ∧ t.ut_waiter = none

/-- Exactly one TCB is `UT_ON_CPU`, and it is the one `ut_curthr` points to. -/
def one_on_cpu (w : World) : Prop :=
  ∃ c cur, w.ut_curthr = some c ∧ w.tcb c = some cur ∧ cur.ut_state = UT_ON_CPU ∧
    ∀ i t, w.tcb i = some t → t.ut_state = UT_ON_CPU → i = c

/-! ## Concrete configurations and states -/

/-- A configuration with a table of four slots; the states are numbered in the order
`UT_NO_STATE, UT_ON_CPU, UT_RUNNABLE, UT_WAIT, UT_ZOMBIE, UT_TRANSITION`. -/
def cfg4 : Config where
  UTH_MAX_UTHREADS := 4
  UTH_MAXPRIO := 7
  UTH_STACK_SIZE := 65536
  state_code := fun s =>
    match s with
    | UT_NO_STATE => 0
    | UT_ON_CPU => 1
    | UT_RUNNABLE => 2
    | UT_WAIT => 3
    | UT_ZOMBIE => 4
    | UT_TRANSITION => 5
  UT_DETACHABLE_code := 0

/-- A zero-filled thread control block, as in static storage before `uthread_init`. -/
def tcb0 : uthread_t where
  ut_ctx := .unset
  ut_stack := none
  ut_id := 0
  ut_state := UT_NO_STATE
  ut_prio := 0
  ut_errno := 0
  ut_has_exited := 0
  ut_exit := 0
  ut_detach_state := UT_DETACHABLE
  ut_waiter := none
  ut_no_preempt_count := 0

/-- The state of a program with a table of four slots before `uthread_init`. -/
def boot4 : World where
  uthreads := List.replicate 4 tcb0
  ut_curthr := none
  reap_queue := []
  thr_id := 0
  reap_mtx := { m_owner := none, m_waiters := [] }
  reap_cond := { uc_waiters := [] }
  runq_table := []
  diag := []

/-- A full table: four live threads. -/
def full4 : World where
  uthreads :=
    [ { tcb0 with ut_id := 0, ut_state := UT_ON_CPU, ut_prio := 7, ut_ctx := .captured },
      { tcb0 with ut_id := 1, ut_state := UT_RUNNABLE, ut_prio := -1, ut_stack := some 5000 },
      { tcb0 with ut_id := 2, ut_state := UT_WAIT, ut_prio := -1, ut_stack := some 6000 },
      { tcb0 with ut_id := 3, ut_state := UT_ZOMBIE, ut_prio := -1, ut_stack := some 7000 } ]
  ut_curthr := some 0
  reap_queue := [3]
  thr_id := 1
  reap_mtx := { m_owner := none, m_waiters := [] }
  reap_cond := { uc_waiters := [] }
  runq_table := List.replicate 8 []
  diag := []

/-- The state after `uthread_init` on a table of four slots: slot 0 is the main thread,
slot 1 the reaper. -/
def init4 : World :=
  match uthread_init cfg4 100 (some 5000) boot4 with
  | .ret _ w => w
  | .abort w => w
  | .undef _ w => w

/-- Thread 2 is joinable and running; thread 0 is blocked in a join on it and thread 3
is on the CPU. -/
def joined4 : World where
  uthreads :=
    [ { tcb0 with ut_id := 0, ut_state := UT_WAIT, ut_prio := 7, ut_ctx := .captured },
      { tcb0 with ut_id := 1, ut_state := UT_RUNNABLE, ut_prio := -1, ut_stack := some 5000 },
      { tcb0 with ut_id := 2, ut_state := UT_RUNNABLE, ut_prio := -1, ut_stack := some 6000,
                  ut_detach_state := UT_JOINABLE, ut_waiter := some 0 },
      { tcb0 with ut_id := 3, ut_state := UT_ON_CPU, ut_prio := -1, ut_stack := some 7000 } ]
  ut_curthr := some 3
  reap_queue := []
  thr_id := 1
  reap_mtx := { m_owner := none, m_waiters := [] }
  reap_cond := { uc_waiters := [] }
  runq_table := List.replicate 8 []
  diag := []

/-- Thread 2 is joinable, has not exited and has no waiter; thread 0 is on the CPU. -/
def joinable4 : World where
  uthreads :=
    [ { tcb0 with ut_id := 0, ut_state := UT_ON_CPU, ut_prio := 7, ut_ctx := .captured },
      { tcb0 with ut_id := 1, ut_state := UT_RUNNABLE, ut_prio := -1, ut_stack := some 5000 },
      { tcb0 with ut_id := 2, ut_state := UT_RUNNABLE, ut_prio := -1, ut_stack := some 6000,
                  ut_detach_state := UT_JOINABLE },
      { tcb0 with ut_id := 3, ut_state := UT_RUNNABLE, ut_prio := -1, ut_stack := some 7000 } ]
  ut_curthr := some 0
  reap_queue := []
  thr_id := 1
  reap_mtx := { m_owner := none, m_waiters := [] }
  reap_cond := { uc_waiters := [] }
  runq_table := List.replicate 8 []
  diag := []

/-- Thread 2 is joinable and on the CPU, about to call `uthread_exit`; nobody has joined
it. Thread 0, which created it, is runnable. -/
def exiting4 : World where
  uthreads :=
    [ { tcb0 with ut_id := 0, ut_state := UT_RUNNABLE, ut_prio := 7, ut_ctx := .captured },
      { tcb0 with ut_id := 1, ut_state := UT_RUNNABLE, ut_prio := -1, ut_stack := some 5000 },
      { tcb0 with ut_id := 2, ut_state := UT_ON_CPU, ut_prio := -1, ut_stack := some 6000,
                  ut_detach_state := UT_JOINABLE } ,
      tcb0 ]
  ut_curthr := some 2
  reap_queue := []
  thr_id := 1
  reap_mtx := { m_owner := none, m_waiters := [] }
  reap_cond := { uc_waiters := [] }
  runq_table := List.replicate 8 []
  diag := []

/-- Thread 2 is joinable and has exited with value 42 (its TCB is the one `uthread_exit`
leaves from `exiting4`); nobody has joined it. Thread 0 is on the CPU. -/
def exited4 : World where
  uthreads :=
    [ { tcb0 with ut_id := 0, ut_state := UT_ON_CPU, ut_prio := 7, ut_ctx := .captured },
      { tcb0 with ut_id := 1, ut_state := UT_RUNNABLE, ut_prio := -1, ut_stack := some 5000 },
      { tcb0 with ut_id := 2, ut_state := UT_WAIT, ut_prio := -1, ut_stack := some 6000,
                  ut_detach_state := UT_JOINABLE, ut_has_exited := 1, ut_exit := 42 },
      tcb0 ]
  ut_curthr := some 0
  reap_queue := []
  thr_id := 1
  reap_mtx := { m_owner := none, m_waiters := [] }
  reap_cond := { uc_waiters := [] }
  runq_table := List.replicate 8 []
  diag := []

/-- Thread 2 is detachable and on the CPU, about to call `uthread_exit`; it has no
waiter. -/
def detached4 : World where
  uthreads :=
    [ { tcb0 with ut_id := 0, ut_state := UT_RUNNABLE, ut_prio := 7, ut_ctx := .captured },
      { tcb0 with ut_id := 1, ut_state := UT_RUNNABLE, ut_prio := -1, ut_stack := some 5000 },
      { tcb0 with ut_id := 2, ut_state := UT_ON_CPU, ut_prio := -1, ut_stack := some 6000 },
      tcb0 ]
  ut_curthr := some 2
  reap_queue := []
  thr_id := 1
  reap_mtx := { m_owner := none, m_waiters := [] }
  reap_cond := { uc_waiters := [] }
  runq_table := List.replicate 8 []
  diag := []

/-- Thread 2 is joinable and on the CPU, about to call `uthread_exit`; thread 0 is
blocked in a join on it. -/
def awaited4 : World where
  uthreads :=
    [ { tcb0 with ut_id := 0, ut_state := UT_WAIT, ut_prio := 7, ut_ctx := .captured },
      { tcb0 with ut_id := 1, ut_state := UT_RUNNABLE, ut_prio := -1, ut_stack := some 5000 },
      { tcb0 with ut_id := 2, ut_state := UT_ON_CPU, ut_prio := -1, ut_stack := some 6000,
                  ut_detach_state := UT_JOINABLE, ut_waiter := some 0 },
      tcb0 ]
  ut_curthr := some 2
  reap_queue := []
  thr_id := 1
  reap_mtx := { m_owner := none, m_waiters := [] }
  reap_cond := { uc_waiters := [] }
  runq_table := List.replicate 8 []
  diag := []

/-- Thread 0 is blocked and calls the scheduler; thread 2 (priority 5) and thread 3
(priority 3) are runnable and sit on the ready queues of their priorities. -/
def ready4 : World where
  uthreads :=
    [ { tcb0 with ut_id := 0, ut_state := UT_WAIT, ut_prio := 7, ut_ctx := .captured },
      { tcb0 with ut_id := 1, ut_state := UT_WAIT, ut_prio := 7, ut_stack := some 5000 },
      { tcb0 with ut_id := 2, ut_state := UT_RUNNABLE, ut_prio := 5, ut_stack := some 6000 },
      { tcb0 with ut_id := 3, ut_state := UT_RUNNABLE, ut_prio := 3, ut_stack := some 7000 } ]
  ut_curthr := some 0
  reap_queue := []
  thr_id := 1
  reap_mtx := { m_owner := none, m_waiters := [] }
  reap_cond := { uc_waiters := [] }
  runq_table := [[], [], [], [3], [], [2], [], []]
  diag := []

/-- The reap queue holds thread 3, a zombie; the main thread 0 and the thread 2 are
alive, the reaper is thread 1. -/
def reaping4 : World where
  uthreads :=
    [ { tcb0 with ut_id := 0, ut_state := UT_WAIT, ut_prio := 7, ut_ctx := .captured },
      { tcb0 with ut_id := 1, ut_state := UT_ON_CPU, ut_prio := 7, ut_stack := some 5000 },
      { tcb0 with ut_id := 2, ut_state := UT_RUNNABLE, ut_prio := -1, ut_stack := some 6000 },
      { tcb0 with ut_id := 3, ut_state := UT_ZOMBIE, ut_prio := -1, ut_stack := some 7000,
                  ut_has_exited := 1 } ]
  ut_curthr := some 1
  reap_queue := [3]
  thr_id := 1
  reap_mtx := { m_owner := none, m_waiters := [] }
  reap_cond := { uc_waiters := [] }
  runq_table := List.replicate 8 []
  diag := []

/-- The reap queue holds the threads 0 and 2, both zombies; only the reaper, thread 1,
is alive besides them. -/
def last4 : World where
  uthreads :=
    [ { tcb0 with ut_id := 0, ut_state := UT_ZOMBIE, ut_prio := 7, ut_ctx := .captured,
                  ut_has_exited := 1 },
      { tcb0 with ut_id := 1, ut_state := UT_ON_CPU, ut_prio := 7, ut_stack := some 5000 },
      { tcb0 with ut_id := 2, ut_state := UT_ZOMBIE, ut_prio := -1, ut_stack := some 6000,
                  ut_has_exited := 1 },
      { tcb0 with ut_id := 3 } ]
  ut_curthr := some 1
  reap_queue := [0, 2]
  thr_id := 1
  reap_mtx := { m_owner := none, m_waiters := [] }
  reap_cond := { uc_waiters := [] }
  runq_table := List.replicate 8 []
  diag := []

/-- The state in which the main thread's `uthread_exit(0)`, called right after
`uthread_init`, stops at the scheduler switch. -/
def exited_main4 : World :=
  match uthread_exit cfg4 0 init4 with
  | .ret _ w => w
  | .abort w => w
  | .undef _ w => w

/-- The state after `uthread_init` and one successful `uthread_create`. -/
def created4 : World :=
  match uthread_create cfg4 (some 9) 7 1 none 3 (some 9000) init4 with
  | .ret _ w => w
  | .abort w => w
  | .undef _ w => w

/-! ## Reading and writing table slots -/

theorem slot_some (w : World) (uid : Int) (t : uthread_t) (h : w.slot uid = some t) :
    0 ≤ uid ∧ w.tcb uid.toNat = some t := by
  unfold World.slot at h
  split at h
  · exact ⟨by assumption, h⟩
  · cases h

theorem slot_of_tcb (w : World) (uid : Int) (h : 0 ≤ uid) :
    w.slot uid = w.tcb uid.toNat := by
  simp [World.slot, h]

theorem tcb_lt (w : World) (i : Nat) (t : uthread_t) (h : w.tcb i = some t) :
    i < w.uthreads.length := by
  unfold World.tcb at h
  exact (List.getElem?_eq_some.mp h).1

theorem tcb_store_same (w : World) (i : Nat) (t : uthread_t) (h : i < w.uthreads.length) :
    (w.store i t).tcb i = some t := by
  simp [World.tcb, World.store, h]

theorem tcb_store_ne (w : World) (i j : Nat) (t : uthread_t) (h : i ≠ j) :
    (w.store i t).tcb j = w.tcb j := by
  simp [World.tcb, World.store, List.getElem?_set_ne h]

theorem set_same {α : Type} (l : List α) (i : Nat) (a : α) (h : l[i]? = some a) :
    l.set i a = l := by
  apply List.ext_getElem?
  intro j
  by_cases hij : i = j
  · subst hij
    have hlt := (List.getElem?_eq_some.mp h).1
    rw [h]
    simp [hlt]
  · rw [List.getElem?_set_ne hij]

theorem store_curthr (w : World) (i : Nat) (t : uthread_t) :
    (w.store i t).ut_curthr = w.ut_curthr := rfl

theorem store_length (w : World) (i : Nat) (t : uthread_t) :
    (w.store i t).uthreads.length = w.uthreads.length := by
  simp [World.store]

/-! ## The free-slot scan -/

theorem tcb_of_lt (w : World) (j : Nat) (h : j < w.uthreads.length) :
    w.tcb j = some (w.uthreads[j]) := by
  simp [World.tcb, h]

theorem tcb_mem (w : World) (j : Nat) (t : uthread_t) (h : w.tcb j = some t) :
    t ∈ w.uthreads := by
  unfold World.tcb at h
  exact List.getElem?_mem h

theorem uthread_alloc_loop_full (w : World) : ∀ (remaining i : Nat),
    (∀ j, i ≤ j → j < i + remaining →
      ∃ t, w.tcb j = some t ∧ t.ut_state ≠ UT_NO_STATE) →
    uthread_alloc_loop w remaining i = .ret (-1) w := by
  intro remaining
  induction remaining with
  | zero => intro i _; rfl
  | succ n ih =>
    intro i h
    obtain ⟨t, ht, hs⟩ := h i (Nat.le_refl i) (by omega)
    have hrest := ih (i + 1) (fun j h1 h2 => h j (by omega) (by omega))
    simp [uthread_alloc_loop, ht, hs, hrest]

theorem uthread_alloc_full (cfg : Config) (w : World)
    (hlen : w.uthreads.length = cfg.UTH_MAX_UTHREADS)
    (hfull : ∀ t ∈ w.uthreads, t.ut_state ≠ UT_NO_STATE) :
    uthread_alloc cfg w = .ret (-1) w := by
  unfold uthread_alloc
  apply uthread_alloc_loop_full
  intro j _ hj
  have hlt : j < w.uthreads.length := by omega
  exact ⟨w.uthreads[j], tcb_of_lt w j hlt, hfull _ (List.getElem_mem hlt)⟩

/-- What the scan returns: the least free slot of the range if there is one, `-1` if
there is none; the state is the one it was called in. -/
theorem uthread_alloc_loop_spec (w : World) : ∀ (remaining i : Nat),
    i + remaining ≤ w.uthreads.length →
    (∃ k t, i ≤ k ∧ k < i + remaining ∧ w.tcb k = some t ∧ t.ut_state = UT_NO_STATE ∧
        (∀ j t', i ≤ j → j < k → w.tcb j = some t' → t'.ut_state ≠ UT_NO_STATE) ∧
        uthread_alloc_loop w remaining i = .ret (k : Int) w) ∨
    ((∀ j t', i ≤ j → j < i + remaining → w.tcb j = some t' →
        t'.ut_state ≠ UT_NO_STATE) ∧
        uthread_alloc_loop w remaining i = .ret (-1) w) := by
  intro remaining
  induction remaining with
  | zero =>
    intro i _
    exact Or.inr ⟨fun j _ h1 h2 => by omega, rfl⟩
  | succ n ih =>
    intro i hle
    have hi : i < w.uthreads.length := by omega
    have hti := tcb_of_lt w i hi
    by_cases hs : (w.uthreads[i]).ut_state = UT_NO_STATE
    · refine Or.inl ⟨i, _, Nat.le_refl i, by omega, hti, hs, fun j _ h1 h2 => by omega, ?_⟩
      simp [uthread_alloc_loop, hti, hs]
    · have hstep : uthread_alloc_loop w (n + 1) i = uthread_alloc_loop w n (i + 1) := by
        simp [uthread_alloc_loop, hti, hs]
      rcases ih (i + 1) (by omega) with ⟨k, t, h1, h2, h3, h4, h5, h6⟩ | ⟨h1, h2⟩
      · refine Or.inl ⟨k, t, by omega, by omega, h3, h4, ?_, by rw [hstep]; exact h6⟩
        intro j t' hj1 hj2 hj3
        by_cases hji : j = i
        · subst hji
          rw [hti] at hj3
          cases hj3
          exact hs
        · exact h5 j t' (by omega) hj2 hj3
      · refine Or.inr ⟨?_, by rw [hstep]; exact h2⟩
        intro j t' hj1 hj2 hj3
        by_cases hji : j = i
        · subst hji
          rw [hti] at hj3
          cases hj3
          exact hs
        · exact h1 j t' (by omega) (by omega) hj3

/-- With a free slot in the table, `uthread_alloc` returns the least free slot. -/
theorem uthread_alloc_free (cfg : Config) (w : World)
    (hlen : w.uthreads.length = cfg.UTH_MAX_UTHREADS)
    (hfree : ∃ t ∈ w.uthreads, t.ut_state = UT_NO_STATE) :
    ∃ k t, k < cfg.UTH_MAX_UTHREADS ∧ w.tcb k = some t ∧ t.ut_state = UT_NO_STATE ∧
      (∀ j t', j < k → w.tcb j = some t' → t'.ut_state ≠ UT_NO_STATE) ∧
      uthread_alloc cfg w = .ret (k : Int) w := by
  unfold uthread_alloc
  rcases uthread_alloc_loop_spec w cfg.UTH_MAX_UTHREADS 0 (by omega) with
    ⟨k, t, _, h2, h3, h4, h5, h6⟩ | ⟨h1, _⟩
  · exact ⟨k, t, by omega, h3, h4, fun j t' hj ht => h5 j t' (Nat.zero_le j) hj ht, h6⟩
  · obtain ⟨t, hmem, hs⟩ := hfree
    obtain ⟨j, hj⟩ := List.mem_iff_getElem?.mp hmem
    have hlt := tcb_lt w j t hj
    exact absurd hs (h1 j t (Nat.zero_le j) (by omega) hj)

/-- The scan reads nothing but the states of the slots. -/
theorem uthread_alloc_loop_congr (w w2 : World)
    (h : ∀ j, (w.tcb j).map (fun t => t.ut_state) = (w2.tcb j).map (fun t => t.ut_state)) :
    ∀ (remaining i : Nat) (v : Int), uthread_alloc_loop w remaining i = .ret v w →
      uthread_alloc_loop w2 remaining i = .ret v w2 := by
  intro remaining
  induction remaining with
  | zero =>
    intro i v hv
    simp [uthread_alloc_loop] at hv ⊢
    exact hv
  | succ n ih =>
    intro i v hv
    have hi := h i
    cases h1 : w.tcb i with
    | none => simp [uthread_alloc_loop, h1] at hv
    | some t =>
      cases h2 : w2.tcb i with
      | none => simp [h1, h2] at hi
      | some t2 =>
        have hst : t.ut_state = t2.ut_state := by simpa [h1, h2] using hi
        by_cases hs : t.ut_state = UT_NO_STATE
        · simp [uthread_alloc_loop, h1, hs] at hv
          simp [uthread_alloc_loop, h2, ← hst, hs]
          exact hv
        · simp [uthread_alloc_loop, h1, hs] at hv
          simp [uthread_alloc_loop, h2, ← hst, hs]
          exact ih (i + 1) v hv

/-! ## C1: creation on a full table -/

/-- C1: when no slot of the table has state `UT_NO_STATE`, `uthread_create` returns `-1`
and the whole state (every TCB, the reap queue, `ut_curthr`) is the one before the call;
the cell behind `uidp` is not written either. -/
theorem uthread_create_table_full (cfg : Config) (w : World) (uidp : Option Int)
    (func : Nat) (arg1 : Int) (arg2 : Option Nat) (prio : Int) (stack : Option Nat)
    (hlen : w.uthreads.length = cfg.UTH_MAX_UTHREADS)
    (hfull : ∀ t ∈ w.uthreads, t.ut_state ≠ UT_NO_STATE) :
    uthread_create cfg uidp func arg1 arg2 prio stack w = .ret (-1, uidp) w := by
  unfold uthread_create
  rw [uthread_alloc_full cfg w hlen hfull]
  simp [Result.bind]

theorem uthread_create_table_full_witness :
    full4.uthreads.length = cfg4.UTH_MAX_UTHREADS ∧
    (∀ t ∈ full4.uthreads, t.ut_state ≠ UT_NO_STATE) ∧
    uthread_create cfg4 (some 9) 7 1 none 3 (some 9000) full4 = .ret (-1, some 9) full4 :=
  ⟨by decide, by decide,
    uthread_create_table_full cfg4 full4 (some 9) 7 1 none 3 (some 9000)
      (by decide) (by decide)⟩

/-- A join on a joinable target that already has a waiter is refused on the spot. -/
theorem uthread_join_waiter_set (cfg : Config) (w : World) (uid : Int)
    (return_value : Option Int) (thr : uthread_t) (j : Nat)
    (hhi : uid < (cfg.UTH_MAX_UTHREADS : Int))
    (hthr : w.slot uid = some thr) (hj : thr.ut_detach_state = UT_JOINABLE)
    (hw : thr.ut_waiter = some j) :
    uthread_join cfg uid return_value w = .ret (-1, return_value) w := by
  simp [uthread_join, not_le.mpr hhi, hthr, hj, hw]

/-- The state in which `uthread_switch` stops the process when it is called in `w`. -/
theorem uthread_switch_eq (w : World) :
    uthread_switch w = .abort { w with
      diag := (w.diag ++ ["UTHREADS: uthread_switch"]) ++ ["no runnable threads"] } := rfl

/-- The blocking path of join: the caller `c` is stored as the target's waiter, its state
becomes `UT_WAIT` and the scheduler switch is called. -/
theorem uthread_join_blocks (cfg : Config) (w : World) (uid : Int)
    (return_value : Option Int) (thr x : uthread_t) (c : Nat)
    (hhi : uid < (cfg.UTH_MAX_UTHREADS : Int))
    (hthr : w.slot uid = some thr) (hj : thr.ut_detach_state = UT_JOINABLE)
    (hw : thr.ut_waiter = none) (hns : thr.ut_state ≠ UT_NO_STATE)
    (hnz : thr.ut_state ≠ UT_ZOMBIE) (hc : w.ut_curthr = some c)
    (hx : (w.store uid.toNat { thr with ut_waiter := some c }).tcb c = some x) :
    uthread_join cfg uid return_value w =
      .abort { ((w.store uid.toNat { thr with ut_waiter := some c }).store c
                  { x with ut_state := UT_WAIT }) with
        diag := (w.diag ++ ["UTHREADS: uthread_switch"]) ++ ["no runnable threads"] } := by
  obtain ⟨ctx, stk, id, st, pr, er, he, ex, ds, wt, np⟩ := thr
  simp only at hj hw hns hnz hx
  subst hj hw
  simp only [uthread_join, not_le.mpr hhi, hthr, hns, hnz, hc, store_curthr, hx,
    uthread_switch_eq, Result.bind, if_false, if_true, ne_eq, not_false_eq_true, or_self,
    not_true_eq_false, reduceCtorEq]
  rfl

/-! ## C5, C6, C7: the error returns of join -/

/-- C5: for an id inside `[0, UTH_MAX_UTHREADS)` whose TCB is `UT_DETACHABLE`,
`uthread_join` returns `-1` in the state it was called in: the scheduler switch is not
reached (nothing is written to the diagnostic stream), the caller keeps its state and the
target keeps its waiter. The cell behind a non-null `return_value` is set to `NULL`. -/
theorem uthread_join_detachable (cfg : Config) (w : World) (uid : Int)
    (return_value : Option Int) (thr : uthread_t)
    (hlo : 0 ≤ uid) (hhi : uid < (cfg.UTH_MAX_UTHREADS : Int))
    (hthr : w.slot uid = some thr) (hd : thr.ut_detach_state = UT_DETACHABLE) :
    uthread_join cfg uid return_value w = .ret (-1, return_value.map fun _ => 0) w := by
  have _ := hlo
  simp [uthread_join, not_le.mpr hhi, hthr, hd]

theorem uthread_join_detachable_witness :
    uthread_join cfg4 1 (some 5) init4 = .ret (-1, some 0) init4 :=
  uthread_join_detachable cfg4 init4 1 (some 5)
    { tcb0 with ut_ctx := .made 5000 65536 100 0 none, ut_stack := some 5000, ut_id := 1,
                ut_state := UT_RUNNABLE, ut_prio := -1 }
    (by decide) (by decide) (by decide) rfl

/-- C6: a join on a `UT_JOINABLE` target whose waiter is already set returns `-1` in the
state it was called in (waiter, caller's state and diagnostic stream untouched, so no
switch). And of two joins on a target that has not exited: the first one has registered
its caller `c1` as the waiter when it calls the scheduler switch (which, being the
unwritten `uthread_switch` of uthread_sched.c, stops the process there), and a join
issued by a thread `c2` on the state the first one left gets `-1` and leaves `c1` the
waiter. -/
theorem uthread_join_already_joined (cfg : Config) (w : World) (uid : Int)
    (return_value : Option Int) (thr : uthread_t)
    (hhi : uid < (cfg.UTH_MAX_UTHREADS : Int))
    (hthr : w.slot uid = some thr) (hj : thr.ut_detach_state = UT_JOINABLE) :
    (∀ j, thr.ut_waiter = some j →
      uthread_join cfg uid return_value w = .ret (-1, return_value) w) ∧
    (∀ (c1 c2 : Nat) (cur : uthread_t) (rv2 : Option Int),
      thr.ut_waiter = none → thr.ut_state ≠ UT_NO_STATE → thr.ut_state ≠ UT_ZOMBIE →
      w.ut_curthr = some c1 → w.tcb c1 = some cur →
      ∃ w1, uthread_join cfg uid return_value w = .abort w1 ∧
        (w1.slot uid).map (fun t => t.ut_waiter) = some (some c1) ∧
        uthread_join cfg uid rv2 { w1 with ut_curthr := some c2 }
          = .ret (-1, rv2) { w1 with ut_curthr := some c2 } ∧
        (({ w1 with ut_curthr := some c2 } : World).slot uid).map (fun t => t.ut_waiter)
          = some (some c1)) := by
  refine ⟨fun j hw => uthread_join_waiter_set cfg w uid return_value thr j hhi hthr hj hw, ?_⟩
  intro c1 c2 cur rv2 hw hns hnz hc hcur
  obtain ⟨h0, ht⟩ := slot_some w uid thr hthr
  have hlt := tcb_lt _ _ _ ht
  have hc1 := tcb_lt _ _ _ hcur
  -- the caller's TCB once the waiter has been stored
  obtain ⟨x, hx, hxw⟩ : ∃ x, (w.store uid.toNat { thr with ut_waiter := some c1 }).tcb c1
      = some x ∧ (c1 = uid.toNat → x = { thr with ut_waiter := some c1 }) := by
    by_cases he : c1 = uid.toNat
    · exact ⟨_, by rw [he]; exact tcb_store_same _ _ _ hlt, fun _ => rfl⟩
    · exact ⟨cur, by rw [tcb_store_ne _ _ _ _ (Ne.symm he)]; exact hcur,
        fun h => absurd h he⟩
  -- the target's TCB in the state in which the switch is called
  obtain ⟨t1, ht1, ht1w, ht1d⟩ : ∃ t1,
      (((w.store uid.toNat { thr with ut_waiter := some c1 }).store c1
        { x with ut_state := UT_WAIT }).tcb uid.toNat = some t1) ∧
      t1.ut_waiter = some c1 ∧ t1.ut_detach_state = UT_JOINABLE := by
    by_cases he : c1 = uid.toNat
    · refine ⟨{ x with ut_state := UT_WAIT }, ?_, ?_, ?_⟩
      · rw [← he]
        exact tcb_store_same _ _ _ (by rw [store_length]; exact hc1)
      · rw [hxw he]
      · rw [hxw he]; exact hj
    · refine ⟨{ thr with ut_waiter := some c1 }, ?_, rfl, hj⟩
      rw [tcb_store_ne _ _ _ _ he]
      exact tcb_store_same _ _ _ hlt
  have hslot : ∀ (c : Option Nat) (d : List String),
      ({ ((w.store uid.toNat { thr with ut_waiter := some c1 }).store c1
          { x with ut_state := UT_WAIT }) with ut_curthr := c, diag := d } : World).slot uid
        = some t1 := by
    intro c d
    rw [slot_of_tcb _ _ h0]
    exact ht1
  refine ⟨_, uthread_join_blocks cfg w uid return_value thr x c1 hhi hthr hj hw hns hnz hc hx,
    ?_, ?_, ?_⟩
  · have h := hslot ((w.store uid.toNat { thr with ut_waiter := some c1 }).store c1
      { x with ut_state := UT_WAIT }).ut_curthr
      ((w.diag ++ ["UTHREADS: uthread_switch"]) ++ ["no runnable threads"])
    rw [h]; simp [ht1w]
  · exact uthread_join_waiter_set cfg _ uid rv2 t1 c1 hhi (hslot _ _) ht1d ht1w
  · have h := hslot (some c2)
      ((w.diag ++ ["UTHREADS: uthread_switch"]) ++ ["no runnable threads"])
    rw [h]; simp [ht1w]

theorem uthread_join_already_joined_witness :
    uthread_join cfg4 2 (some 5) joined4 = .ret (-1, some 5) joined4 ∧
    ∃ w1, uthread_join cfg4 2 (some 5) joinable4 = .abort w1 ∧
      (w1.slot 2).map (fun t => t.ut_waiter) = some (some 0) ∧
      uthread_join cfg4 2 (some 6) { w1 with ut_curthr := some 3 }
        = .ret (-1, some 6) { w1 with ut_curthr := some 3 } ∧
      (({ w1 with ut_curthr := some 3 } : World).slot 2).map (fun t => t.ut_waiter)
        = some (some 0) :=
  ⟨(uthread_join_already_joined cfg4 joined4 2 (some 5)
      { tcb0 with ut_id := 2, ut_state := UT_RUNNABLE, ut_prio := -1, ut_stack := some 6000,
                  ut_detach_state := UT_JOINABLE, ut_waiter := some 0 }
      (by decide) (by decide) rfl).1 0 rfl,
   (uthread_join_already_joined cfg4 joinable4 2 (some 5)
      { tcb0 with ut_id := 2, ut_state := UT_RUNNABLE, ut_prio := -1, ut_stack := some 6000,
                  ut_detach_state := UT_JOINABLE }
      (by decide) (by decide) rfl).2 0 3
      { tcb0 with ut_id := 0, ut_state := UT_ON_CPU, ut_prio := 7, ut_ctx := .captured }
      (some 6) rfl (by decide) (by decide) rfl (by decide)⟩

/-- C7: an id at or above `UTH_MAX_UTHREADS` is refused with `-1` in an unchanged state,
and so is an in-range id whose slot is `UT_NO_STATE`; a negative id passes the only range
test of `uthread_join` (`uid >= UTH_MAX_UTHREADS`) and the function reads
`uthreads[uid]`, an element before the start of the table. -/
theorem uthread_join_negative_id (cfg : Config) (w : World) (n : Nat)
    (return_value : Option Int) :
    uthread_join cfg (Int.negSucc n) return_value w
      = .undef (.out_of_bounds (Int.negSucc n)) w := by
  have h1 : ¬ (Int.negSucc n ≥ (cfg.UTH_MAX_UTHREADS : Int)) := by
    have := Int.negSucc_lt_zero n
    omega
  have h2 : w.slot (Int.negSucc n) = none := by
    have := Int.negSucc_lt_zero n
    simp [World.slot]
  simp [uthread_join, h1, h2]

/-- An id at or above `UTH_MAX_UTHREADS` is refused in an unchanged state. -/
theorem uthread_join_id_too_large (cfg : Config) (w : World) (uid : Int)
    (return_value : Option Int) (h : (cfg.UTH_MAX_UTHREADS : Int) ≤ uid) :
    uthread_join cfg uid return_value w = .ret (-1, return_value) w := by
  simp [uthread_join, h]

/-- An in-range id whose slot is `UT_NO_STATE` is refused in an unchanged state. -/
theorem uthread_join_no_state (cfg : Config) (w : World) (uid : Int)
    (return_value : Option Int) (thr : uthread_t)
    (hhi : uid < (cfg.UTH_MAX_UTHREADS : Int))
    (hthr : w.slot uid = some thr) (hs : thr.ut_state = UT_NO_STATE) :
    uthread_join cfg uid return_value w =
      .ret (-1, if thr.ut_detach_state = UT_DETACHABLE then return_value.map fun _ => 0
                else return_value) w := by
  by_cases hd : thr.ut_detach_state = UT_DETACHABLE
  · simp [uthread_join, not_le.mpr hhi, hthr, hd]
  · simp [uthread_join, not_le.mpr hhi, hthr, hd, hs]

/-! ## C8, C9: creation with a free slot -/

/-- C8: with a free slot in the table and a failing stack allocation, `uthread_create`
returns `-1`; the slot `k` that `uthread_alloc` picked was `UT_NO_STATE` and is still
`UT_NO_STATE` in the state `w1` the call leaves (only its `ut_stack` was written), the
next `uthread_alloc` returns `k` again, and the state of every TCB is the one before the
call. -/
theorem uthread_create_no_memory (cfg : Config) (w : World) (uid0 : Int) (func : Nat)
    (arg1 : Int) (arg2 : Option Nat) (prio : Int)
    (hlen : w.uthreads.length = cfg.UTH_MAX_UTHREADS)
    (hfree : ∃ t ∈ w.uthreads, t.ut_state = UT_NO_STATE) :
    ∃ (k : Nat) (t : uthread_t) (w1 : World),
      uthread_alloc cfg w = .ret (k : Int) w ∧
      w.tcb k = some t ∧ t.ut_state = UT_NO_STATE ∧
      w1 = w.store k { t with ut_stack := none } ∧
      uthread_create cfg (some uid0) func arg1 arg2 prio none w
        = .ret (-1, some (k : Int)) w1 ∧
      (w1.tcb k).map (fun x => x.ut_state) = some UT_NO_STATE ∧
      uthread_alloc cfg w1 = .ret (k : Int) w1 ∧
      w1.uthreads.map (fun x => x.ut_state) = w.uthreads.map (fun x => x.ut_state) := by
  obtain ⟨k, t, hk, ht, hs, _, ha⟩ := uthread_alloc_free cfg w hlen hfree
  have hlt := tcb_lt w k t ht
  have hstates : ∀ j, (w.tcb j).map (fun x => x.ut_state)
      = ((w.store k { t with ut_stack := none }).tcb j).map (fun x => x.ut_state) := by
    intro j
    by_cases hjk : k = j
    · subst hjk
      rw [tcb_store_same _ _ _ hlt, ht]
      rfl
    · rw [tcb_store_ne _ _ _ _ hjk]
  refine ⟨k, t, _, ha, ht, hs, rfl, ?_, ?_, ?_, ?_⟩
  · have hne : ¬ ((k : Int) = -1) := by omega
    simp [uthread_create, ha, Result.bind, hne, World.slot, ht]
  · rw [tcb_store_same _ _ _ hlt]
    simp [hs]
  · exact uthread_alloc_loop_congr w _ hstates _ _ _ ha
  · apply List.ext_getElem?
    intro j
    have := hstates j
    simp only [World.tcb] at this
    simp only [List.getElem?_map]
    exact this.symm

theorem uthread_create_no_memory_witness :
    ∃ (k : Nat) (t : uthread_t) (w1 : World),
      uthread_alloc cfg4 init4 = .ret (k : Int) init4 ∧
      init4.tcb k = some t ∧ t.ut_state = UT_NO_STATE ∧
      w1 = init4.store k { t with ut_stack := none } ∧
      uthread_create cfg4 (some 9) 7 1 none 3 none init4 = .ret (-1, some (k : Int)) w1 ∧
      (w1.tcb k).map (fun x => x.ut_state) = some UT_NO_STATE ∧
      uthread_alloc cfg4 w1 = .ret (k : Int) w1 ∧
      w1.uthreads.map (fun x => x.ut_state) = init4.uthreads.map (fun x => x.ut_state) :=
  uthread_create_no_memory cfg4 init4 9 7 1 none 3 (by decide) (by decide)

/-- C9: with a free slot in the table and a successful stack allocation, `uthread_create`
returns `0` and stores in `*uidp` the index `k` of a slot that was `UT_NO_STATE` before
the call; after the call that slot has `ut_errno = 0`, `ut_has_exited = 0`,
`ut_exit = NULL`, `ut_detach_state = UT_DETACHABLE`, `ut_waiter = NULL`, `ut_id = k` and
`ut_state = UT_RUNNABLE`, and every other slot of the table is the one before the call. -/
theorem uthread_create_success (cfg : Config) (w : World) (uid0 : Int) (func : Nat)
    (arg1 : Int) (arg2 : Option Nat) (prio : Int) (stk : Nat)
    (hlen : w.uthreads.length = cfg.UTH_MAX_UTHREADS)
    (hfree : ∃ t ∈ w.uthreads, t.ut_state = UT_NO_STATE) :
    ∃ (k : Nat) (old new : uthread_t) (w1 : World),
      uthread_create cfg (some uid0) func arg1 arg2 prio (some stk) w
        = .ret (0, some (k : Int)) w1 ∧
      k < cfg.UTH_MAX_UTHREADS ∧
      w.tcb k = some old ∧ old.ut_state = UT_NO_STATE ∧
      w1.tcb k = some new ∧
      new.ut_errno = 0 ∧ new.ut_has_exited = 0 ∧ new.ut_exit = 0 ∧
      new.ut_detach_state = UT_DETACHABLE ∧ new.ut_waiter = none ∧
      new.ut_id = (k : Int) ∧ new.ut_state = UT_RUNNABLE ∧
      (∀ j, j ≠ k → w1.tcb j = w.tcb j) ∧
      w1.uthreads.length = w.uthreads.length := by
  obtain ⟨k, t, hk, ht, hs, _, ha⟩ := uthread_alloc_free cfg w hlen hfree
  have hlt := tcb_lt w k t ht
  have hne : ¬ ((k : Int) = -1) := by omega
  refine ⟨k, t,
    { t with
      ut_stack := some stk
      ut_ctx := .made stk cfg.UTH_STACK_SIZE func arg1 arg2
      ut_id := (k : Int)
      ut_state := UT_RUNNABLE
      ut_errno := 0
      ut_has_exited := 0
      ut_exit := 0
      ut_detach_state := UT_DETACHABLE
      ut_waiter := none
      ut_prio := -1 },
    Function_you_need_to_implement "UTHREADS: uthread_setprio" (w.store k
      { t with
        ut_stack := some stk
        ut_ctx := .made stk cfg.UTH_STACK_SIZE func arg1 arg2
        ut_id := (k : Int)
        ut_state := UT_RUNNABLE
        ut_errno := 0
        ut_has_exited := 0
        ut_exit := 0
        ut_detach_state := UT_DETACHABLE
        ut_waiter := none
        ut_prio := -1 }),
    ?_, hk, ht, hs, ?_, rfl, rfl, rfl, rfl, rfl, rfl, rfl, ?_, ?_⟩
  · simp only [uthread_create, ha, Result.bind, hne, World.slot, ht, if_false,
      Int.toNat_ofNat, Int.ofNat_zero_le, if_true, uthread_setprio]
  · exact tcb_store_same _ _ _ hlt
  · intro j hj
    exact tcb_store_ne _ _ _ _ (Ne.symm hj)
  · exact store_length _ _ _

theorem uthread_create_success_witness :
    ∃ (k : Nat) (old new : uthread_t) (w1 : World),
      uthread_create cfg4 (some 9) 7 1 none 3 (some 9000) init4
        = .ret (0, some (k : Int)) w1 ∧
      k < cfg4.UTH_MAX_UTHREADS ∧
      init4.tcb k = some old ∧ old.ut_state = UT_NO_STATE ∧
      w1.tcb k = some new ∧
      new.ut_errno = 0 ∧ new.ut_has_exited = 0 ∧ new.ut_exit = 0 ∧
      new.ut_detach_state = UT_DETACHABLE ∧ new.ut_waiter = none ∧
      new.ut_id = (k : Int) ∧ new.ut_state = UT_RUNNABLE ∧
      (∀ j, j ≠ k → w1.tcb j = init4.tcb j) ∧
      w1.uthreads.length = init4.uthreads.length :=
  uthread_create_success cfg4 init4 9 7 1 none 3 9000 (by decide) (by decide)

/-! ## C2, C3, C4: exit and the join that follows it -/

/-- An exit with no waiter, in general: the flags are recorded, the thread goes to
`UT_WAIT`, the scheduler switch is called, and nothing else is touched (in particular
the reap queue), whatever the thread's detach state is. -/
theorem uthread_exit_no_waiter (cfg : Config) (status : Int) (w : World) (c : Nat)
    (cur : uthread_t) (hc : w.ut_curthr = some c) (hcur : w.tcb c = some cur)
    (hw : cur.ut_waiter = none) :
    uthread_exit cfg status w = .abort { w with
      uthreads := w.uthreads.set c
        { cur with ut_has_exited := 1, ut_exit := status, ut_state := UT_WAIT }
      diag := (w.diag ++ ["UTHREADS: uthread_switch"]) ++ ["no runnable threads"] } := by
  have hlt := tcb_lt w c cur hcur
  obtain ⟨ctx, stk, id, st, pr, er, he, ex, ds, wt, np⟩ := cur
  simp only at hw
  subst hw
  have h1 := tcb_store_same w c
    { ut_ctx := ctx, ut_stack := stk, ut_id := id, ut_state := st, ut_prio := pr,
      ut_errno := er, ut_has_exited := 1, ut_exit := status, ut_detach_state := ds,
      ut_waiter := none, ut_no_preempt_count := np } hlt
  simp only [uthread_exit, hc, hcur, ne_eq, not_true_eq_false, if_false, Result.bind, h1,
    uthread_switch_eq]
  simp [World.store, hc]


/-- Where the join of an exited target does work: the target is already `UT_ZOMBIE`.
Then the join returns `0` with the exit value, appends the target to the reap queue and
changes no TCB and not the current thread; the scheduler switch is not called. -/
theorem uthread_join_zombie_target (cfg : Config) (w : World) (uid : Int) (v0 : Int)
    (thr cur : uthread_t) (c : Nat)
    (hhi : uid < (cfg.UTH_MAX_UTHREADS : Int))
    (hthr : w.slot uid = some thr) (hj : thr.ut_detach_state = UT_JOINABLE)
    (hw : thr.ut_waiter = none) (hz : thr.ut_state = UT_ZOMBIE)
    (hc : w.ut_curthr = some c) (hcur : w.tcb c = some cur)
    (hcz : cur.ut_state ≠ UT_ZOMBIE) :
    ∃ w1, uthread_join cfg uid (some v0) w = .ret (0, some thr.ut_exit) w1 ∧
      w1.reap_queue = w.reap_queue ++ [uid.toNat] ∧
      w1.uthreads = w.uthreads ∧ w1.ut_curthr = w.ut_curthr ∧
      "UTHREADS: uthread_switch" ∉ w1.diag.drop w.diag.length := by
  obtain ⟨h0, ht⟩ := slot_some w uid thr hthr
  have hlt := tcb_lt _ _ _ ht
  have hset : w.uthreads.set uid.toNat { thr with ut_state := UT_ZOMBIE } = w.uthreads := by
    have hthr2 : { thr with ut_state := UT_ZOMBIE } = thr := by
      cases thr
      simp only at hz
      subst hz
      rfl
    rw [hthr2]
    unfold World.tcb at ht
    exact set_same _ _ _ ht
  have hne : (cur.ut_state != UT_ZOMBIE) = true := by simpa using hcz
  have ht2 : ∀ d, ({ w with diag := d } : World).tcb uid.toNat = some thr := fun _ => ht
  clear ht2
  simp only [World.tcb] at ht hcur
  cases hq : w.reap_cond.uc_waiters with
  | nil =>
    simp only [uthread_join, not_le.mpr hhi, hthr, hj, hw, hz, Result.bind,
      make_reapable, hc, c_assert, uthread_mtx_lock, uthread_mtx_unlock,
      uthread_cond_signal, hq, Function_you_need_to_implement, World.store, World.tcb,
      ht, hcur, hne, if_true, if_false, ne_eq, not_true_eq_false, or_self, reduceCtorEq]
    exact ⟨_, rfl, rfl, by simpa [hj, hw] using hset, rfl, by simp⟩
  | cons t rest =>
    simp only [uthread_join, not_le.mpr hhi, hthr, hj, hw, hz, Result.bind,
      make_reapable, hc, c_assert, uthread_mtx_lock, uthread_mtx_unlock,
      uthread_cond_signal, hq, Function_you_need_to_implement, World.store, World.tcb,
      uthread_wake, ht, hcur, hne, if_true, if_false, ne_eq, not_true_eq_false, or_self,
      reduceCtorEq]
    exact ⟨_, rfl, rfl, by simpa [hj, hw] using hset, rfl, by simp⟩

/-- C2, on the code: a joinable thread that calls `uthread_exit(42)` with no waiter is
left with `ut_has_exited = 1`, `ut_exit = 42` and state `UT_WAIT`; `uthread_join` tests
`ut_state != UT_ZOMBIE`, not `ut_has_exited`, so a join on it by thread 0 stores thread 0
as the waiter, puts thread 0 in `UT_WAIT` and calls the scheduler switch, where the
process stops: it does not return `0`, and the target is not on the reap queue. -/
theorem uthread_join_exited_target_blocks :
    (∃ wE, uthread_exit cfg4 42 exiting4 = .abort wE ∧ wE.tcb 2 = exited4.tcb 2) ∧
    (exited4.tcb 2).map (fun t => (t.ut_detach_state, t.ut_has_exited, t.ut_exit, t.ut_waiter))
      = some (UT_JOINABLE, 1, 42, none) ∧
    ∃ wJ, uthread_join cfg4 2 (some 0) exited4 = .abort wJ ∧
      (wJ.tcb 0).map (fun t => t.ut_state) = some UT_WAIT ∧
      (wJ.tcb 2).map (fun t => t.ut_waiter) = some (some 0) ∧
      wJ.reap_queue = [] ∧
      wJ.diag = ["UTHREADS: uthread_switch", "no runnable threads"] := by
  refine ⟨⟨_, rfl, by decide⟩, by decide, _, rfl, by decide, by decide, by decide, by decide⟩

/-- The scenario as a program would run it: the thread that `uthread_create` makes (slot 2,
priority 2) is `UT_DETACHABLE`, so a join on it by the main thread returns `-1` at once
and sets the result to `NULL`. -/
theorem uthread_join_fresh_thread :
    ∃ wc, uthread_create cfg4 (some 9) 7 1 none 2 (some 9000) init4 = .ret (0, some 2) wc ∧
      uthread_join cfg4 2 (some 5) wc = .ret (-1, some 0) wc :=
  ⟨_, rfl, by decide⟩

/-- C3, on the code: a detachable thread with no waiter that calls `uthread_exit` is not
placed on the reap queue. The call of `make_reapable` sits inside the test
`ut_waiter != NULL`, so it is skipped: the reap queue stays empty, the thread goes to
`UT_WAIT` (never `UT_ZOMBIE`), the reaper's condition variable is not signalled, and the
scheduler switch is called. -/
theorem uthread_exit_detached_not_reaped (cfg : Config) (status : Int) :
    ∃ w1, uthread_exit cfg status detached4 = .abort w1 ∧
      (detached4.tcb 2).map (fun t => (t.ut_detach_state, t.ut_waiter))
        = some (UT_DETACHABLE, none) ∧
      w1.reap_queue = [] ∧
      (w1.tcb 2).map (fun t => (t.ut_state, t.ut_has_exited, t.ut_exit))
        = some (UT_WAIT, 1, status) ∧
      w1.diag = ["UTHREADS: uthread_switch", "no runnable threads"] :=
  ⟨_, rfl, by decide, rfl, rfl, rfl⟩

/-- C4, on the code: thread 2 exits while thread 0 is blocked in a join on it. Whatever
integer values the headers give the enumerators, thread 0 is still in `UT_WAIT` when the
exiting thread calls the scheduler switch, and it is on no ready queue: `uthread_wake` of
uthread_sched.c is an unwritten function that changes nothing. And `uthread_exit` compares
the thread state (not `ut_detach_state`) with `UT_DETACHABLE`: where `UT_ON_CPU` and
`UT_DETACHABLE` have the same integer value the exiting thread is put on the reap queue
and `uthread_wake` is not even called. -/
theorem uthread_exit_waiter_not_woken (cfg : Config) (status : Int) :
    ∃ w1, uthread_exit cfg status awaited4 = .abort w1 ∧
      (awaited4.tcb 2).map (fun t => t.ut_waiter) = some (some 0) ∧
      (w1.tcb 0).map (fun t => t.ut_state) = some UT_WAIT ∧
      w1.runq_table = awaited4.runq_table ∧
      w1.reap_queue =
        (if cfg.state_code UT_ON_CPU = cfg.UT_DETACHABLE_code then [2] else []) ∧
      w1.diag =
        (if cfg.state_code UT_ON_CPU = cfg.UT_DETACHABLE_code then
          ["UTHREADS: uthread_mtx_lock", "UTHREADS: uthread_mtx_unlock",
            "UTHREADS: uthread_switch", "no runnable threads"]
        else ["UTHREADS: uthread_wake", "UTHREADS: uthread_switch", "no runnable threads"]) := by
  by_cases h : cfg.state_code UT_ON_CPU = cfg.UT_DETACHABLE_code
  · have hx : uthread_exit cfg status awaited4 = .abort
        { awaited4 with
          uthreads :=
            [ { tcb0 with ut_id := 0, ut_state := UT_WAIT, ut_prio := 7, ut_ctx := .captured },
              { tcb0 with ut_id := 1, ut_state := UT_RUNNABLE, ut_prio := -1,
                          ut_stack := some 5000 },
              { tcb0 with ut_id := 2, ut_state := UT_WAIT, ut_prio := -1,
                          ut_stack := some 6000, ut_detach_state := UT_JOINABLE,
                          ut_waiter := some 0, ut_has_exited := 1, ut_exit := status },
              tcb0 ]
          reap_queue := [2]
          diag := ["UTHREADS: uthread_mtx_lock", "UTHREADS: uthread_mtx_unlock",
            "UTHREADS: uthread_switch", "no runnable threads"] } := by
      simp [uthread_exit, awaited4, World.tcb, World.store, tcb0, h, make_reapable, c_assert,
        Result.bind, uthread_mtx_lock, uthread_mtx_unlock, uthread_cond_signal, uthread_wake,
        uthread_switch, PANIC, Function_you_need_to_implement]
    exact ⟨_, hx, by decide, rfl, rfl, by simp [h], by simp [h]⟩
  · have hx : uthread_exit cfg status awaited4 = .abort
        { awaited4 with
          uthreads :=
            [ { tcb0 with ut_id := 0, ut_state := UT_WAIT, ut_prio := 7, ut_ctx := .captured },
              { tcb0 with ut_id := 1, ut_state := UT_RUNNABLE, ut_prio := -1,
                          ut_stack := some 5000 },
              { tcb0 with ut_id := 2, ut_state := UT_WAIT, ut_prio := -1,
                          ut_stack := some 6000, ut_detach_state := UT_JOINABLE,
                          ut_waiter := some 0, ut_has_exited := 1, ut_exit := status },
              tcb0 ]
          diag := ["UTHREADS: uthread_wake", "UTHREADS: uthread_switch",
            "no runnable threads"] } := by
      simp [uthread_exit, awaited4, World.tcb, World.store, tcb0, h, make_reapable, c_assert,
        Result.bind, uthread_mtx_lock, uthread_mtx_unlock, uthread_cond_signal, uthread_wake,
        uthread_switch, PANIC, Function_you_need_to_implement]
    exact ⟨_, hx, by decide, rfl, rfl, by simp [h, awaited4], by simp [h]⟩

/-! ## C10: the priority of a new thread -/

/-- C10, on the code: `uthread_setprio` of uthread_sched.c is an unwritten function: it
returns `0` (failure) and leaves the table as it is. So after
`uthread_create(..., 3)` has returned `0` on a table of priorities up to 7, the new
thread (slot 2) has the `ut_prio = -1` that `uthread_create` wrote before the call, not
`3`, and `-1` is outside `[0, UTH_MAXPRIO]`. -/
theorem uthread_create_prio_not_stored (id prio : Int) (w : World) :
    (uthread_setprio id prio w).1 = 0 ∧
    (uthread_setprio id prio w).2.uthreads = w.uthreads ∧
    ∃ w1, uthread_create cfg4 (some 9) 7 1 none 3 (some 9000) init4 = .ret (0, some 2) w1 ∧
      (w1.tcb 2).map (fun t => t.ut_prio) = some (-1) ∧
      cfg4.UTH_MAXPRIO = 7 :=
  ⟨rfl, rfl, _, rfl, by decide, rfl⟩

/-! ## C19: the free-slot scan as a whole -/

/-- C19: on a table of `UTH_MAX_UTHREADS` slots `uthread_alloc` returns, in the state it
was called in, the smallest index whose slot is `UT_NO_STATE`, and it returns `-1` if and
only if no slot is `UT_NO_STATE`. -/
theorem uthread_alloc_least_free (cfg : Config) (w : World)
    (hlen : w.uthreads.length = cfg.UTH_MAX_UTHREADS) :
    ∃ v, uthread_alloc cfg w = .ret v w ∧
      (v = -1 ↔ ∀ t ∈ w.uthreads, t.ut_state ≠ UT_NO_STATE) ∧
      (v ≠ -1 → ∃ (k : Nat) (t : uthread_t), v = (k : Int) ∧ k < cfg.UTH_MAX_UTHREADS ∧
        w.tcb k = some t ∧ t.ut_state = UT_NO_STATE ∧
        ∀ j t', j < k → w.tcb j = some t' → t'.ut_state ≠ UT_NO_STATE) := by
  by_cases hfree : ∃ t ∈ w.uthreads, t.ut_state = UT_NO_STATE
  · obtain ⟨k, t, hk, ht, hs, hleast, ha⟩ := uthread_alloc_free cfg w hlen hfree
    refine ⟨(k : Int), ha, ?_, fun _ => ⟨k, t, rfl, hk, ht, hs, hleast⟩⟩
    constructor
    · intro h
      omega
    · intro h
      obtain ⟨t1, hm, hs1⟩ := hfree
      exact absurd hs1 (h t1 hm)
  · have hfull : ∀ t ∈ w.uthreads, t.ut_state ≠ UT_NO_STATE := by
      intro t hm hs
      exact hfree ⟨t, hm, hs⟩
    exact ⟨-1, uthread_alloc_full cfg w hlen hfull, ⟨fun _ => hfull, fun _ => rfl⟩,
      fun h => absurd rfl h⟩

theorem uthread_alloc_least_free_witness :
    ∃ v, uthread_alloc cfg4 init4 = .ret v init4 ∧
      (v = -1 ↔ ∀ t ∈ init4.uthreads, t.ut_state ≠ UT_NO_STATE) ∧
      (v ≠ -1 → ∃ (k : Nat) (t : uthread_t), v = (k : Int) ∧ k < cfg4.UTH_MAX_UTHREADS ∧
        init4.tcb k = some t ∧ t.ut_state = UT_NO_STATE ∧
        ∀ j t', j < k → init4.tcb j = some t' → t'.ut_state ≠ UT_NO_STATE) :=
  uthread_alloc_least_free cfg4 init4 (by decide)

/-! ## C12, C13: the scheduler switch and the mutex -/

/-- C12, on the code: `uthread_switch` of uthread_sched.c is an unwritten function
followed by `PANIC("no runnable threads")`. In every state it stops the process with
that message and selects nothing: the table, `ut_curthr` and the ready queues are
the ones before the call. In `ready4`, where thread 2 (priority 5) and thread 3
(priority 3) are runnable and queued, thread 2 is not taken off its queue, is not
`UT_ON_CPU` and is not the current thread. -/
theorem uthread_switch_selects_nothing (w : World) :
    (∃ w1, uthread_switch w = .abort w1 ∧ w1.uthreads = w.uthreads ∧
      w1.ut_curthr = w.ut_curthr ∧ w1.runq_table = w.runq_table ∧
      w1.diag = (w.diag ++ ["UTHREADS: uthread_switch"]) ++ ["no runnable threads"]) ∧
    (∃ w2, uthread_switch ready4 = .abort w2 ∧
      ready4.runq_table = [[], [], [], [3], [], [2], [], []] ∧
      w2.runq_table = [[], [], [], [3], [], [2], [], []] ∧
      (w2.tcb 2).map (fun t => t.ut_state) = some UT_RUNNABLE ∧
      w2.ut_curthr = some 0) :=
  ⟨⟨_, rfl, rfl, rfl, rfl, rfl⟩, ⟨_, rfl, rfl, rfl, by decide, rfl⟩⟩

/-- C13, on the code: `uthread_mtx_lock` and `uthread_mtx_unlock` of uthread_mtx.c are
unwritten functions that leave the mutex as it is. An unowned mutex with an empty wait
queue is still unowned after `uthread_mtx_lock`: between the two calls the calling thread
is not the owner. (After the unlock it is unowned with an empty queue, as before.) -/
theorem uthread_mtx_lock_takes_nothing (mtx : uthread_mtx_t) (w : World) :
    (uthread_mtx_lock mtx w).1 = mtx ∧ (uthread_mtx_unlock mtx w).1 = mtx ∧
    (uthread_mtx_lock mtx w).2.uthreads = w.uthreads ∧
    ∃ m1 w1, uthread_mtx_lock { m_owner := none, m_waiters := [] } init4 = (m1, w1) ∧
      init4.ut_curthr = some 0 ∧ m1.m_owner = none ∧
      w1.diag = init4.diag ++ ["UTHREADS: uthread_mtx_lock"] ∧
      (uthread_mtx_unlock m1 w1).1 = { m_owner := none, m_waiters := [] } :=
  ⟨rfl, rfl, rfl, _, _, rfl, by decide, rfl, rfl, rfl⟩

/-! ## C16: destruction of a thread -/

/-- A successful `uthread_create` on the slot that `uthread_alloc` picks. -/
theorem uthread_create_picked (cfg : Config) (w : World) (uid0 : Int) (func : Nat)
    (arg1 : Int) (arg2 : Option Nat) (prio : Int) (stk : Nat) (k : Nat) (t : uthread_t)
    (ha : uthread_alloc cfg w = .ret (k : Int) w) (ht : w.tcb k = some t) :
    uthread_create cfg (some uid0) func arg1 arg2 prio (some stk) w =
      .ret (0, some (k : Int))
        (Function_you_need_to_implement "UTHREADS: uthread_setprio" (w.store k
          { t with
            ut_stack := some stk
            ut_ctx := .made stk cfg.UTH_STACK_SIZE func arg1 arg2
            ut_id := (k : Int)
            ut_state := UT_RUNNABLE
            ut_errno := 0
            ut_has_exited := 0
            ut_exit := 0
            ut_detach_state := UT_DETACHABLE
            ut_waiter := none
            ut_prio := -1 })) := by
  have hne : ¬ ((k : Int) = -1) := by omega
  simp only [uthread_create, ha, Result.bind, hne, World.slot, ht, if_false,
    Int.toNat_ofNat, Int.ofNat_zero_le, if_true, uthread_setprio]

/-- C16: `uthread_destroy` stops the process on a TCB that is not `UT_ZOMBIE` (failed
`assert`) and returns on a `UT_ZOMBIE` one. It then leaves the slot with
`ut_state = UT_NO_STATE` and `ut_waiter = NULL` (and `ut_has_exited = 1`), keeps its
`ut_id` and changes no other slot. The slot is free again for `uthread_alloc`, which
returns it unless a slot before it was free already, and a `uthread_create` that
`uthread_alloc` directs to it sets `ut_has_exited = 0`. -/
theorem uthread_destroy_zombie_only (cfg : Config) (w : World) (k : Nat) (t : uthread_t)
    (ht : w.tcb k = some t) :
    (t.ut_state ≠ UT_ZOMBIE → uthread_destroy k w = .abort w) ∧
    (t.ut_state = UT_ZOMBIE →
      ∃ w1 t1, uthread_destroy k w = .ret () w1 ∧ w1.tcb k = some t1 ∧
        t1.ut_state = UT_NO_STATE ∧ t1.ut_waiter = none ∧ t1.ut_id = t.ut_id ∧
        t1.ut_has_exited = 1 ∧
        (∀ j, j ≠ k → w1.tcb j = w.tcb j) ∧
        (w.uthreads.length = cfg.UTH_MAX_UTHREADS →
          ∃ j : Nat, uthread_alloc cfg w1 = .ret (j : Int) w1 ∧ j ≤ k ∧
            (j < k → ∃ tj, w.tcb j = some tj ∧ tj.ut_state = UT_NO_STATE)) ∧
        (∀ (w2 : World) (t2 : uthread_t) (uid0 : Int) (func : Nat) (arg1 : Int)
            (arg2 : Option Nat) (prio : Int) (stk : Nat),
          uthread_alloc cfg w2 = .ret (k : Int) w2 → w2.tcb k = some t2 →
          ∃ w3 t3, uthread_create cfg (some uid0) func arg1 arg2 prio (some stk) w2
              = .ret (0, some (k : Int)) w3 ∧
            w3.tcb k = some t3 ∧ t3.ut_has_exited = 0)) := by
  have hlt := tcb_lt w k t ht
  constructor
  · intro hs
    have hb : (t.ut_state == UT_ZOMBIE) = false := by simpa using hs
    simp [uthread_destroy, ht, c_assert, hb, Result.bind]
  · intro hs
    have hb : (t.ut_state == UT_ZOMBIE) = true := by simpa using hs
    have hd : uthread_destroy k w = .ret () (w.store k
        { t with ut_state := UT_NO_STATE, ut_has_exited := 1, ut_waiter := none }) := by
      simp [uthread_destroy, ht, c_assert, hb, Result.bind]
    have hk1 := tcb_store_same w k
      { t with ut_state := UT_NO_STATE, ut_has_exited := 1, ut_waiter := none } hlt
    refine ⟨_, _, hd, hk1, rfl, rfl, rfl, rfl, ?_, ?_, ?_⟩
    · intro j hj
      exact tcb_store_ne _ _ _ _ (Ne.symm hj)
    · intro hlen
      have hlen1 : (w.store k
          { t with ut_state := UT_NO_STATE, ut_has_exited := 1, ut_waiter := none }
          ).uthreads.length = cfg.UTH_MAX_UTHREADS := by
        rw [store_length]; exact hlen
      obtain ⟨j, tj, _, htj, hsj, hleast, ha⟩ :=
        uthread_alloc_free cfg _ hlen1 ⟨_, List.getElem?_mem hk1, rfl⟩
      have hjk : j ≤ k := by
        by_contra hcon
        exact hleast k _ (by omega) hk1 rfl
      refine ⟨j, ha, hjk, fun hlt2 => ⟨tj, ?_, hsj⟩⟩
      rw [← htj]
      exact (tcb_store_ne _ _ _ _ (by omega)).symm
    · intro w2 t2 uid0 func arg1 arg2 prio stk ha2 ht2
      exact ⟨_, _, uthread_create_picked cfg w2 uid0 func arg1 arg2 prio stk k t2 ha2 ht2,
        tcb_store_same _ _ _ (tcb_lt _ _ _ ht2), rfl⟩

theorem uthread_destroy_zombie_only_witness :
    uthread_destroy 2 full4 = .abort full4 ∧
    ∃ w1 t1, uthread_destroy 3 full4 = .ret () w1 ∧ w1.tcb 3 = some t1 ∧
      t1.ut_state = UT_NO_STATE ∧ t1.ut_waiter = none ∧ t1.ut_id = 3 ∧
      ∃ j : Nat, uthread_alloc cfg4 w1 = .ret (j : Int) w1 ∧ j ≤ 3 := by
  refine ⟨(uthread_destroy_zombie_only cfg4 full4 2 _ rfl).1 (by decide), ?_⟩
  obtain ⟨w1, t1, h1, h2, h3, h4, h5, _, _, h8, _⟩ :=
    (uthread_destroy_zombie_only cfg4 full4 3 _ rfl).2 rfl
  obtain ⟨j, hj, hle, _⟩ := h8 (by decide)
  exact ⟨w1, t1, h1, h2, h3, h4, h5, j, hj, hle⟩

/-! ## C15: the reaper's decision after the drain -/

/-- What `uthread_destroy` leaves alone. -/
theorem uthread_destroy_frame (k : Nat) (w w1 : World)
    (h : uthread_destroy k w = .ret () w1) :
    w1.reap_queue = w.reap_queue ∧ w1.uthreads.length = w.uthreads.length ∧
      w1.thr_id = w.thr_id ∧ w1.ut_curthr = w.ut_curthr := by
  unfold uthread_destroy at h
  cases ht : w.tcb k with
  | none => simp [ht] at h
  | some t =>
    by_cases hb : (t.ut_state == UT_ZOMBIE) = true
    · simp [ht, c_assert, hb, Result.bind] at h
      subst h
      simp [World.store]
    · simp [ht, c_assert, hb, Result.bind] at h

/-- A drain that returns leaves the reap queue empty and the table as long as before. -/
theorem reaper_drain_from_spec : ∀ (q : List Nat) (w w1 : World),
    reaper_drain_from q w = .ret () w1 →
    (q = [] → w1 = w) ∧ (q ≠ [] → w1.reap_queue = []) ∧
      w1.uthreads.length = w.uthreads.length ∧ w1.thr_id = w.thr_id := by
  intro q
  induction q with
  | nil =>
    intro w w1 h
    simp [reaper_drain_from] at h
    subst h
    exact ⟨fun _ => rfl, fun h => absurd rfl h, rfl, rfl⟩
  | cons thread rest ih =>
    intro w w1 h
    simp only [reaper_drain_from] at h
    cases hd : uthread_destroy thread { w with reap_queue := rest } with
    | ret v w2 =>
      rw [hd] at h
      simp only [Result.bind] at h
      obtain ⟨hq, hl, hi, _⟩ := uthread_destroy_frame thread _ w2 hd
      obtain ⟨h1, h2, h3, h4⟩ := ih w2 w1 h
      refine ⟨?_, ?_, ?_, ?_⟩
      · intro hc
        cases hc
      · intro _
        by_cases hr : rest = []
        · rw [h1 hr, hq, hr]
        · exact h2 hr
      · rw [h3, hl]
      · rw [h4, hi]
    | abort w2 => rw [hd] at h; simp [Result.bind] at h
    | undef f w2 => rw [hd] at h; simp [Result.bind] at h

theorem reaper_drain_spec (w w1 : World) (h : reaper_drain w = .ret () w1) :
    w1.reap_queue = [] ∧ w1.uthreads.length = w.uthreads.length ∧ w1.thr_id = w.thr_id := by
  obtain ⟨h1, h2, h3, h4⟩ := reaper_drain_from_spec w.reap_queue w w1 h
  refine ⟨?_, h3, h4⟩
  by_cases hq : w.reap_queue = []
  · rw [h1 hq]; exact hq
  · exact h2 hq

/-- The scan stops at the first slot, other than the reaper's, that is not `UT_NO_STATE`,
and runs to the end of its range when there is none. -/
theorem reaper_scan_spec (w : World) : ∀ (remaining th : Nat),
    th + remaining ≤ w.uthreads.length →
    (reaper_scan remaining th w = .ret (th + remaining) w ∧
      ∀ i t, th ≤ i → i < th + remaining → (i : Int) ≠ w.thr_id → w.tcb i = some t →
        t.ut_state = UT_NO_STATE) ∨
    (∃ v t, th ≤ v ∧ v < th + remaining ∧ (v : Int) ≠ w.thr_id ∧ w.tcb v = some t ∧
      t.ut_state ≠ UT_NO_STATE ∧ reaper_scan remaining th w = .ret v w) := by
  intro remaining
  induction remaining with
  | zero =>
    intro th _
    exact Or.inl ⟨rfl, fun i t h1 h2 => by omega⟩
  | succ n ih =>
    intro th hle
    have hth : th < w.uthreads.length := by omega
    have hti := tcb_of_lt w th hth
    have hstop : (th : Int) ≠ w.thr_id ∧ (w.uthreads[th]).ut_state ≠ UT_NO_STATE →
        reaper_scan (n + 1) th w = .ret th w := by
      intro ⟨h1, h2⟩
      simp [reaper_scan, h1, hti, h2]
    have hstep : ¬ ((th : Int) ≠ w.thr_id ∧ (w.uthreads[th]).ut_state ≠ UT_NO_STATE) →
        reaper_scan (n + 1) th w = reaper_scan n (th + 1) w := by
      intro hno
      by_cases h1 : (th : Int) = w.thr_id
      · simp [reaper_scan, h1]
      · have h2 : (w.uthreads[th]).ut_state = UT_NO_STATE := by
          by_contra h2
          exact hno ⟨h1, h2⟩
        simp [reaper_scan, h1, hti, h2]
    by_cases hc : (th : Int) ≠ w.thr_id ∧ (w.uthreads[th]).ut_state ≠ UT_NO_STATE
    · exact Or.inr ⟨th, _, Nat.le_refl th, by omega, hc.1, hti, hc.2, hstop hc⟩
    · rcases ih (th + 1) (by omega) with ⟨h1, h2⟩ | ⟨v, t, h1, h2, h3, h4, h5, h6⟩
      · refine Or.inl ⟨?_, ?_⟩
        · rw [hstep hc, h1]
          congr 1
          omega
        · intro i t hi1 hi2 hi3 hi4
          by_cases hit : i = th
          · subst hit
            rw [hti] at hi4
            cases hi4
            by_contra hns
            exact hc ⟨hi3, hns⟩
          · exact h2 i t (by omega) (by omega) hi3 hi4
      · exact Or.inr ⟨v, t, by omega, by omega, h3, h4, h5, by rw [hstep hc]; exact h6⟩

/-- C15: once the drain of the reap queue has returned (in state `w1`, with an empty
queue), the reaper calls `exit(0)` if and only if every slot of the table whose index is
not the reaper's id is `UT_NO_STATE`; if some other slot is not `UT_NO_STATE` the pass
ends at the head of the `while(1)` loop in state `w1`, where the queue is empty and the
reaper waits again. -/
theorem reaper_pass_decision (cfg : Config) (w w1 : World)
    (hlen : w.uthreads.length = cfg.UTH_MAX_UTHREADS)
    (hd : reaper_drain w = .ret () w1) :
    w1.reap_queue = [] ∧
    ((∃ w2, reaper_pass cfg w = .ret (.process_exit 0) w2) ↔
      ∀ i t, i < cfg.UTH_MAX_UTHREADS → (i : Int) ≠ w1.thr_id → w1.tcb i = some t →
        t.ut_state = UT_NO_STATE) ∧
    ((∃ i t, i < cfg.UTH_MAX_UTHREADS ∧ (i : Int) ≠ w1.thr_id ∧ w1.tcb i = some t ∧
        t.ut_state ≠ UT_NO_STATE) →
      reaper_pass cfg w = .ret .wait_again w1) := by
  obtain ⟨hq, hl, _⟩ := reaper_drain_spec w w1 hd
  refine ⟨hq, ?_⟩
  rcases reaper_scan_spec w1 cfg.UTH_MAX_UTHREADS 0 (by omega) with
    ⟨h1, h2⟩ | ⟨v, t, _, hv, h3, h4, h5, h6⟩
  · have hp : reaper_pass cfg w = .ret (.process_exit 0)
        { w1 with diag := (w1.diag ++ ["uthreads: no more threads."]) ++ ["uthreads: bye!"] }
        := by
      simp [reaper_pass, hd, Result.bind, h1]
    have hall : ∀ i t, i < cfg.UTH_MAX_UTHREADS → (i : Int) ≠ w1.thr_id →
        w1.tcb i = some t → t.ut_state = UT_NO_STATE :=
      fun i t hi hne ht => h2 i t (Nat.zero_le i) (by omega) hne ht
    refine ⟨⟨fun _ => hall, fun _ => ⟨_, hp⟩⟩, ?_⟩
    rintro ⟨i, t, hi, hne, ht, hs⟩
    exact absurd (hall i t hi hne ht) hs
  · have hvne : ¬ (v = cfg.UTH_MAX_UTHREADS) := by omega
    have hp : reaper_pass cfg w = .ret .wait_again w1 := by
      simp [reaper_pass, hd, Result.bind, h6, hvne]
    refine ⟨⟨?_, ?_⟩, fun _ => hp⟩
    · rintro ⟨w2, hw2⟩
      rw [hp] at hw2
      cases hw2
    · intro hall
      exact absurd (hall v t (by omega) h3 h4) h5

theorem reaper_pass_decision_witness :
    (∃ w1, reaper_drain reaping4 = .ret () w1 ∧ w1.reap_queue = [] ∧
      reaper_pass cfg4 reaping4 = .ret .wait_again w1) ∧
    (∃ w1 w2, reaper_drain last4 = .ret () w1 ∧
      reaper_pass cfg4 last4 = .ret (.process_exit 0) w2) := by
  constructor
  · have h := reaper_pass_decision cfg4 reaping4 _ (by decide) rfl
    exact ⟨_, rfl, h.1, h.2.2 ⟨0, _, by decide, by decide, rfl, by decide⟩⟩
  · have h := reaper_pass_decision cfg4 last4 _ (by decide) rfl
    have hall : ∀ i t, i < cfg4.UTH_MAX_UTHREADS → (i : Int) ≠ 1 →
        (match reaper_drain last4 with
          | .ret _ w1 => w1
          | .abort w1 => w1
          | .undef _ w1 => w1).tcb i = some t → t.ut_state = UT_NO_STATE := by
      intro i t hi hne ht
      have hi4 : i < 4 := hi
      interval_cases i
      · cases ht; rfl
      · exact absurd rfl hne
      · cases ht; rfl
      · cases ht; rfl
    obtain ⟨w2, hw2⟩ := h.2.1.mpr hall
    exact ⟨_, w2, rfl, hw2⟩

/-! ## C11: what exit records -/

/-- `make_reapable` in full: it stops the process when the current thread is a zombie
(failed `assert`); otherwise it returns with the thread `uth` marked `UT_ZOMBIE` and
appended to the reap queue, and with nothing else of the table changed. -/
theorem make_reapable_spec (uth c : Nat) (cur t : uthread_t) (w : World)
    (hc : w.ut_curthr = some c) (hcur : w.tcb c = some cur) (ht : w.tcb uth = some t) :
    (cur.ut_state = UT_ZOMBIE ∧ make_reapable uth w = .abort w) ∨
    (cur.ut_state ≠ UT_ZOMBIE ∧ ∃ w1, make_reapable uth w = .ret () w1 ∧
      w1.uthreads = w.uthreads.set uth { t with ut_state := UT_ZOMBIE } ∧
      w1.reap_queue = w.reap_queue ++ [uth] ∧ w1.ut_curthr = w.ut_curthr ∧
      w1.thr_id = w.thr_id ∧ w1.runq_table = w.runq_table) := by
  simp only [World.tcb] at ht hcur
  by_cases hz : cur.ut_state = UT_ZOMBIE
  · left
    have hne : (cur.ut_state != UT_ZOMBIE) = false := by simp [hz]
    refine ⟨hz, ?_⟩
    simp only [make_reapable, hc, World.tcb, hcur, c_assert, hne, Result.bind]
    rfl
  · right
    have hne : (cur.ut_state != UT_ZOMBIE) = true := by simpa using hz
    refine ⟨hz, ?_⟩
    cases hq : w.reap_cond.uc_waiters with
    | nil =>
      simp only [make_reapable, hc, World.tcb, hcur, c_assert, hne, Result.bind,
        uthread_mtx_lock, uthread_mtx_unlock, uthread_cond_signal, hq,
        Function_you_need_to_implement, World.store, ht, if_true]
      exact ⟨_, rfl, rfl, rfl, rfl, rfl, rfl⟩
    | cons x rest =>
      simp only [make_reapable, hc, World.tcb, hcur, c_assert, hne, Result.bind,
        uthread_mtx_lock, uthread_mtx_unlock, uthread_cond_signal, hq, uthread_wake,
        Function_you_need_to_implement, World.store, ht, if_true]
      exact ⟨_, rfl, rfl, rfl, rfl, rfl, rfl⟩

/-- `uthread_exit` in full. Either the current thread is a zombie with a waiter and
`UT_ZOMBIE` has the integer value of `UT_DETACHABLE`, and the `assert` of `make_reapable`
stops the process once the exit status is recorded; or the scheduler switch is called in
a state `w0` that differs from the one before the call in the current thread's TCB
(`ut_has_exited = 1`, `ut_exit = status`, `ut_state = UT_WAIT`), possibly in the reap
queue (the current thread appended) and in the diagnostic stream. -/
theorem uthread_exit_spec (cfg : Config) (status : Int) (w : World) (c : Nat)
    (cur : uthread_t) (hc : w.ut_curthr = some c) (hcur : w.tcb c = some cur) :
    (cur.ut_state = UT_ZOMBIE ∧ cur.ut_waiter ≠ none ∧
      uthread_exit cfg status w
        = .abort (w.store c { cur with ut_has_exited := 1, ut_exit := status })) ∨
    (∃ w0, uthread_exit cfg status w = uthread_switch w0 ∧
      w0.uthreads = w.uthreads.set c
        { cur with ut_has_exited := 1, ut_exit := status, ut_state := UT_WAIT } ∧
      w0.ut_curthr = w.ut_curthr ∧
      (w0.reap_queue = w.reap_queue ∨ w0.reap_queue = w.reap_queue ++ [c]) ∧
      w0.thr_id = w.thr_id ∧ w0.runq_table = w.runq_table) := by
  have hlt := tcb_lt w c cur hcur
  obtain ⟨ctx, stk, id, st, pr, er, he, ex, ds, wt, np⟩ := cur
  have h1 := tcb_store_same w c
    { ut_ctx := ctx, ut_stack := stk, ut_id := id, ut_state := st, ut_prio := pr,
      ut_errno := er, ut_has_exited := 1, ut_exit := status, ut_detach_state := ds,
      ut_waiter := wt, ut_no_preempt_count := np } hlt
  cases wt with
  | none =>
    right
    refine ⟨{ w with uthreads := (w.uthreads.set c
            { ut_ctx := ctx, ut_stack := stk, ut_id := id, ut_state := UT_WAIT, ut_prio := pr,
              ut_errno := er, ut_has_exited := 1, ut_exit := status, ut_detach_state := ds,
              ut_waiter := none, ut_no_preempt_count := np }) },
      ?_, rfl, rfl, Or.inl rfl, rfl, rfl⟩
    rw [uthread_exit_no_waiter cfg status w c _ hc hcur rfl]
    rfl
  | some j =>
    by_cases hcode : cfg.state_code st = cfg.UT_DETACHABLE_code
    · have hex : uthread_exit cfg status w =
          (make_reapable c (w.store c
            { ut_ctx := ctx, ut_stack := stk, ut_id := id, ut_state := st, ut_prio := pr,
              ut_errno := er, ut_has_exited := 1, ut_exit := status, ut_detach_state := ds,
              ut_waiter := some j, ut_no_preempt_count := np })).bind fun _ w =>
            match w.tcb c with
            | none => .undef (.out_of_bounds c) w
            | some cur => uthread_switch (w.store c { cur with ut_state := UT_WAIT }) := by
        simp only [uthread_exit, hc, hcur, hcode, ne_eq, reduceCtorEq, not_false_eq_true,
          if_true]
      rcases make_reapable_spec c c _ _ (w.store c
            { ut_ctx := ctx, ut_stack := stk, ut_id := id, ut_state := st, ut_prio := pr,
              ut_errno := er, ut_has_exited := 1, ut_exit := status, ut_detach_state := ds,
              ut_waiter := some j, ut_no_preempt_count := np }) hc h1 h1 with ⟨hz, hm⟩ | ⟨hz, w1, hm, hu, hq, hcu, hid, hrq⟩
      · left
        refine ⟨hz, by simp, ?_⟩
        rw [hex, hm]
        rfl
      · right
        have hw1 : w1.tcb c = some
            { ut_ctx := ctx, ut_stack := stk, ut_id := id, ut_state := UT_ZOMBIE, ut_prio := pr,
              ut_errno := er, ut_has_exited := 1, ut_exit := status, ut_detach_state := ds,
              ut_waiter := some j, ut_no_preempt_count := np } := by
          simp only [World.tcb, hu, World.store]
          simp [hlt]
        refine ⟨w1.store c
            { ut_ctx := ctx, ut_stack := stk, ut_id := id, ut_state := UT_WAIT, ut_prio := pr,
              ut_errno := er, ut_has_exited := 1, ut_exit := status, ut_detach_state := ds,
              ut_waiter := some j, ut_no_preempt_count := np },
          ?_, ?_, hcu, Or.inr hq, hid, hrq⟩
        · rw [hex, hm]
          simp only [Result.bind, hw1]
        · simp only [World.store, hu, List.set_set]
    · right
      refine ⟨(uthread_wake (some j) (w.store c
            { ut_ctx := ctx, ut_stack := stk, ut_id := id, ut_state := st, ut_prio := pr,
              ut_errno := er, ut_has_exited := 1, ut_exit := status, ut_detach_state := ds,
              ut_waiter := some j, ut_no_preempt_count := np })).store c
            { ut_ctx := ctx, ut_stack := stk, ut_id := id, ut_state := UT_WAIT, ut_prio := pr,
              ut_errno := er, ut_has_exited := 1, ut_exit := status, ut_detach_state := ds,
              ut_waiter := some j, ut_no_preempt_count := np },
        ?_, ?_, rfl, Or.inl rfl, rfl, rfl⟩
      · simp only [uthread_exit, hc, hcur, hcode, ne_eq, reduceCtorEq, not_false_eq_true,
          if_true, if_false, Result.bind]
        have h2 : (uthread_wake (some j) (w.store c
            { ut_ctx := ctx, ut_stack := stk, ut_id := id, ut_state := st, ut_prio := pr,
              ut_errno := er, ut_has_exited := 1, ut_exit := status, ut_detach_state := ds,
              ut_waiter := some j, ut_no_preempt_count := np })).tcb c = _ := h1
        rw [h2]
      · simp only [World.store, uthread_wake, Function_you_need_to_implement, List.set_set]

/-- C11: for every status `s`, `uthread_exit(s)` ends in a state `w1` in which the
current thread's TCB has `ut_has_exited = 1` and `ut_exit = s` and every other TCB of the
table is the one before the call (so its `ut_has_exited` and `ut_exit` are unchanged).
And when the calling thread is not itself a zombie, the call reaches the scheduler switch,
in a state `w0` with the same table, in which the calling thread is `UT_WAIT`. -/
theorem uthread_exit_records_status (cfg : Config) (status : Int) (w : World) (c : Nat)
    (cur : uthread_t) (hc : w.ut_curthr = some c) (hcur : w.tcb c = some cur) :
    (∃ w1, uthread_exit cfg status w = .abort w1 ∧
      (w1.tcb c).map (fun t => (t.ut_has_exited, t.ut_exit)) = some (1, status) ∧
      (∀ j, j ≠ c → w1.tcb j = w.tcb j) ∧
      (∀ j, j ≠ c → (w1.tcb j).map (fun t => (t.ut_has_exited, t.ut_exit))
        = (w.tcb j).map (fun t => (t.ut_has_exited, t.ut_exit)))) ∧
    (cur.ut_state ≠ UT_ZOMBIE →
      ∃ w0, uthread_exit cfg status w = uthread_switch w0 ∧
        (w0.tcb c).map (fun t => (t.ut_has_exited, t.ut_exit, t.ut_state))
          = some (1, status, UT_WAIT) ∧
        (∀ j, j ≠ c → w0.tcb j = w.tcb j)) := by
  have hlt := tcb_lt w c cur hcur
  rcases uthread_exit_spec cfg status w c cur hc hcur with
    ⟨hzz, _, he⟩ | ⟨w0, he, hu, _, _, _, _⟩
  · refine ⟨⟨_, he, ?_, ?_, ?_⟩, fun hz => absurd hzz hz⟩
    · rw [tcb_store_same _ _ _ hlt]
      rfl
    · intro j hj
      exact tcb_store_ne _ _ _ _ (Ne.symm hj)
    · intro j hj
      rw [tcb_store_ne _ _ _ _ (Ne.symm hj)]
  · have hother : ∀ j, j ≠ c → w0.tcb j = w.tcb j := by
      intro j hj
      simp only [World.tcb, hu]
      exact List.getElem?_set_ne (Ne.symm hj)
    have hself : w0.tcb c = some
        { cur with ut_has_exited := 1, ut_exit := status, ut_state := UT_WAIT } := by
      simp only [World.tcb, hu]
      simp [hlt]
    have hab : uthread_exit cfg status w = .abort { w0 with
        diag := (w0.diag ++ ["UTHREADS: uthread_switch"]) ++ ["no runnable threads"] } := by
      rw [he, uthread_switch_eq]
    have hsame : ∀ j, ({ w0 with diag := (w0.diag ++ ["UTHREADS: uthread_switch"]) ++
        ["no runnable threads"] } : World).tcb j = w0.tcb j := fun _ => rfl
    refine ⟨⟨_, hab, ?_, fun j hj => ?_, fun j hj => ?_⟩, fun _ => ⟨w0, he, ?_, hother⟩⟩
    · rw [hsame, hself]
      rfl
    · rw [hsame, hother j hj]
    · rw [hsame, hother j hj]
    · rw [hself]
      rfl

theorem uthread_exit_records_status_witness :
    (∃ w1, uthread_exit cfg4 42 awaited4 = .abort w1 ∧
      (w1.tcb 2).map (fun t => (t.ut_has_exited, t.ut_exit)) = some (1, 42) ∧
      (∀ j, j ≠ 2 → w1.tcb j = awaited4.tcb j)) ∧
    (∃ w0, uthread_exit cfg4 42 awaited4 = uthread_switch w0 ∧
      (w0.tcb 2).map (fun t => (t.ut_has_exited, t.ut_exit, t.ut_state))
        = some (1, 42, UT_WAIT) ∧
      (∀ j, j ≠ 2 → w0.tcb j = awaited4.tcb j)) :=
  have h := uthread_exit_records_status cfg4 42 awaited4 2
    { tcb0 with ut_id := 2, ut_state := UT_ON_CPU, ut_prio := -1, ut_stack := some 6000,
                ut_detach_state := UT_JOINABLE, ut_waiter := some 0 }
    rfl rfl
  ⟨match h.1 with
    | ⟨w1, h1, h2, h3, _⟩ => ⟨w1, h1, h2, h3⟩,
   h.2 (by decide)⟩

/-! ## The states the calls leave -/

theorem tcb_store_cases (w : World) (i j : Nat) (t t1 : uthread_t)
    (h : (w.store i t).tcb j = some t1) :
    (j = i ∧ t1 = t) ∨ (j ≠ i ∧ w.tcb j = some t1) := by
  by_cases hji : j = i
  · subst hji
    have hlt : j < w.uthreads.length := by
      have := tcb_lt _ _ _ h
      rwa [store_length] at this
    rw [tcb_store_same _ _ _ hlt] at h
    cases h
    exact Or.inl ⟨rfl, rfl⟩
  · rw [tcb_store_ne _ _ _ _ (Ne.symm hji)] at h
    exact Or.inr ⟨hji, h⟩

/-- The scan returns in the state it was called in, with `-1` or with the index of a
`UT_NO_STATE` slot of its range; it never stops the process. -/
theorem uthread_alloc_loop_ret (w : World) : ∀ (remaining i : Nat) (r : Result Int),
    uthread_alloc_loop w remaining i = r →
    (∃ f, r = .undef f w) ∨ r = .ret (-1) w ∨
      ∃ (k : Nat) (t : uthread_t), r = .ret (k : Int) w ∧ i ≤ k ∧ k < i + remaining ∧
        w.tcb k = some t ∧ t.ut_state = UT_NO_STATE := by
  intro remaining
  induction remaining with
  | zero =>
    intro i r h
    simp only [uthread_alloc_loop] at h
    exact Or.inr (Or.inl h.symm)
  | succ n ih =>
    intro i r h
    simp only [uthread_alloc_loop] at h
    cases ht : w.tcb i with
    | none =>
      rw [ht] at h
      exact Or.inl ⟨_, h.symm⟩
    | some t =>
      rw [ht] at h
      by_cases hs : t.ut_state = UT_NO_STATE
      · simp only [hs, if_true] at h
        exact Or.inr (Or.inr ⟨i, t, h.symm, Nat.le_refl i, by omega, ht, hs⟩)
      · simp only [hs, if_false] at h
        rcases ih (i + 1) r h with h1 | h1 | ⟨k, t1, h1, h2, h3, h4, h5⟩
        · exact Or.inl h1
        · exact Or.inr (Or.inl h1)
        · exact Or.inr (Or.inr ⟨k, t1, h1, by omega, by omega, h4, h5⟩)

/-- The states `uthread_create` can leave: the one it was called in, or that one with the
`ut_stack` of a free slot set to `NULL` (failed allocation), or that one with a free slot
filled in as a new runnable, detachable thread without waiter. It never stops the
process. -/
theorem uthread_create_cases (cfg : Config) (uidp : Option Int) (func : Nat) (arg1 : Int)
    (arg2 : Option Nat) (prio : Int) (stack : Option Nat) (w w1 : World)
    (h : (uthread_create cfg uidp func arg1 arg2 prio stack w).state = some w1) :
    w1 = w ∨ ∃ (k : Nat) (t : uthread_t), k < cfg.UTH_MAX_UTHREADS ∧ w.tcb k = some t ∧
      t.ut_state = UT_NO_STATE ∧
      (w1 = w.store k { t with ut_stack := none } ∨
        ∃ stk, w1 = Function_you_need_to_implement "UTHREADS: uthread_setprio" (w.store k
          { t with
            ut_stack := some stk
            ut_ctx := .made stk cfg.UTH_STACK_SIZE func arg1 arg2
            ut_id := (k : Int)
            ut_state := UT_RUNNABLE
            ut_errno := 0
            ut_has_exited := 0
            ut_exit := 0
            ut_detach_state := UT_DETACHABLE
            ut_waiter := none
            ut_prio := -1 })) := by
  unfold uthread_create at h
  rcases uthread_alloc_loop_ret w cfg.UTH_MAX_UTHREADS 0 _ rfl with
    ⟨f, ha⟩ | ha | ⟨k, t, ha, _, hk, ht, hs⟩
  · simp [uthread_alloc, ha, Result.bind, Result.state] at h
  · simp [uthread_alloc, ha, Result.bind, Result.state] at h
    exact Or.inl h.symm
  · right
    refine ⟨k, t, by omega, ht, hs, ?_⟩
    have hne : ¬ ((k : Int) = -1) := by omega
    cases uidp with
    | none => simp [uthread_alloc, ha, Result.bind, Result.state, hne] at h
    | some u =>
      cases stack with
      | none =>
        simp [uthread_alloc, ha, Result.bind, Result.state, hne, World.slot, ht] at h
        exact Or.inl h.symm
      | some stk =>
        simp [uthread_alloc, ha, Result.bind, Result.state, hne, World.slot, ht,
          uthread_setprio] at h
        exact Or.inr ⟨stk, h.symm⟩

/-- The states `uthread_join` can leave: the one it was called in (every return of `-1`,
and the failed `assert` of `make_reapable`); or, on the blocking path, that one with the
caller stored as the target's waiter and put in `UT_WAIT` (the state in which the
scheduler switch stops the process); or, for a target that is a zombie, that one with the
target appended to the reap queue. -/
theorem uthread_join_cases (cfg : Config) (uid : Int) (return_value : Option Int)
    (w w1 : World) (h : (uthread_join cfg uid return_value w).state = some w1) :
    w1 = w ∨
    (∃ (thr x : uthread_t) (c : Nat), uid < (cfg.UTH_MAX_UTHREADS : Int) ∧
      w.slot uid = some thr ∧
      thr.ut_detach_state = UT_JOINABLE ∧ thr.ut_waiter = none ∧
      thr.ut_state ≠ UT_NO_STATE ∧ thr.ut_state ≠ UT_ZOMBIE ∧ w.ut_curthr = some c ∧
      (w.store uid.toNat { thr with ut_waiter := some c }).tcb c = some x ∧
      w1 = { ((w.store uid.toNat { thr with ut_waiter := some c }).store c
                { x with ut_state := UT_WAIT }) with
        diag := (w.diag ++ ["UTHREADS: uthread_switch"]) ++ ["no runnable threads"] }) ∨
    (∃ thr : uthread_t, uid < (cfg.UTH_MAX_UTHREADS : Int) ∧ w.slot uid = some thr ∧
      thr.ut_detach_state = UT_JOINABLE ∧
      thr.ut_state = UT_ZOMBIE ∧ w1.uthreads = w.uthreads ∧ w1.ut_curthr = w.ut_curthr ∧
      w1.reap_queue = w.reap_queue ++ [uid.toNat]) := by
  by_cases hhi : (cfg.UTH_MAX_UTHREADS : Int) ≤ uid
  · rw [uthread_join_id_too_large cfg w uid return_value hhi] at h
    exact Or.inl (Option.some.inj h).symm
  have hhi2 : uid < (cfg.UTH_MAX_UTHREADS : Int) := by omega
  cases hthr : w.slot uid with
  | none => simp [uthread_join, hhi, hthr, Result.state] at h
  | some thr =>
    by_cases hd : thr.ut_detach_state = UT_DETACHABLE
    · simp [uthread_join, hhi, hthr, hd, Result.state] at h
      exact Or.inl h.symm
    have hj : thr.ut_detach_state = UT_JOINABLE := by
      cases hds : thr.ut_detach_state with
      | UT_DETACHABLE => exact absurd hds hd
      | UT_JOINABLE => rfl
    by_cases hw : thr.ut_waiter ≠ none ∨ thr.ut_state = UT_NO_STATE
    · simp only [uthread_join, ge_iff_le, hhi, hthr, hd, hw, if_true, if_false,
        Result.state] at h
      exact Or.inl (Option.some.inj h).symm
    have hwn : thr.ut_waiter = none := by
      by_contra hne
      exact hw (Or.inl hne)
    have hns : thr.ut_state ≠ UT_NO_STATE := fun hs => hw (Or.inr hs)
    obtain ⟨h0, ht⟩ := slot_some w uid thr hthr
    by_cases hz : thr.ut_state = UT_ZOMBIE
    · -- the target is a zombie: no switch, `make_reapable`
      cases return_value with
      | none =>
        simp [uthread_join, hhi, hthr, hd, hwn, hz, Result.bind, Result.state] at h
      | some v0 =>
        have hex : uthread_join cfg uid (some v0) w =
            (make_reapable uid.toNat w).bind fun _ w => .ret (0, some thr.ut_exit) w := by
          simp [uthread_join, hhi, hthr, hd, hwn, hz, ht, Result.bind]
        rw [hex] at h
        cases hc : w.ut_curthr with
        | none => simp [make_reapable, hc, Result.bind, Result.state] at h
        | some c =>
          cases hcur : w.tcb c with
          | none => simp [make_reapable, hc, hcur, Result.bind, Result.state] at h
          | some cur =>
            rcases make_reapable_spec uid.toNat c cur thr w hc hcur ht with
              ⟨_, hm⟩ | ⟨_, w2, hm, hu, hq, hcu, _, _⟩
            · rw [hm] at h
              simp only [Result.bind, Result.state] at h
              exact Or.inl (Option.some.inj h).symm
            · rw [hm] at h
              simp only [Result.bind, Result.state] at h
              have hw2 : w2 = w1 := Option.some.inj h
              subst hw2
              refine Or.inr (Or.inr ⟨thr, hhi2, rfl, hj, hz, ?_, hcu.trans hc, hq⟩)
              rw [hu]
              have hthr2 : { thr with ut_state := UT_ZOMBIE } = thr := by
                cases thr
                simp only at hz
                subst hz
                rfl
              rw [hthr2]
              exact set_same _ _ _ ht
    · -- the blocking path
      cases hc : w.ut_curthr with
      | none =>
        simp [uthread_join, hhi, hthr, hd, hwn, hns, hz, hc, store_curthr, Result.bind,
          Result.state] at h
      | some c =>
        cases hx : (w.store uid.toNat { thr with ut_waiter := some c }).tcb c with
        | none =>
          exfalso
          obtain ⟨ctx, stk, id, st, pr, er, he, ex, ds, wt, np⟩ := thr
          simp only at hd hwn hns hz hx
          subst hwn
          simp [uthread_join, hhi, hthr, hd, hns, hz, hc, store_curthr, hx, Result.bind,
            Result.state] at h
        | some x =>
          rw [uthread_join_blocks cfg w uid return_value thr x c hhi2 hthr hj hwn hns hz hc hx]
            at h
          exact Or.inr (Or.inl ⟨thr, x, c, hhi2, rfl, hj, hwn, hns, hz, rfl, hx,
            (Option.some.inj h).symm⟩)

/-! ## The state after initialisation -/

/-- The loop of `uthread_init` sets `ut_id` and `ut_state` of the slots of its range and
leaves the other slots as they are. -/
theorem uthread_init_loop_spec : ∀ (remaining i : Nat) (w w1 : World),
    uthread_init_loop remaining i w = .ret () w1 →
    (∀ j t, i ≤ j → j < i + remaining → w1.tcb j = some t →
      t.ut_id = (j : Int) ∧ t.ut_state = UT_NO_STATE) ∧
    (∀ j, j < i → w1.tcb j = w.tcb j) ∧
    w1.uthreads.length = w.uthreads.length ∧
    w1.ut_curthr = w.ut_curthr ∧ w1.reap_queue = w.reap_queue := by
  intro remaining
  induction remaining with
  | zero =>
    intro i w w1 h
    simp only [uthread_init_loop] at h
    cases h
    exact ⟨fun j t h1 h2 => by omega, fun _ _ => rfl, rfl, rfl, rfl⟩
  | succ n ih =>
    intro i w w1 h
    simp only [uthread_init_loop] at h
    cases ht : w.tcb i with
    | none => rw [ht] at h; cases h
    | some t0 =>
      rw [ht] at h
      simp only at h
      obtain ⟨h1, h2, h3, h4, h5⟩ := ih (i + 1) _ w1 h
      have hlt := tcb_lt w i t0 ht
      refine ⟨?_, ?_, by rw [h3, store_length], h4, h5⟩
      · intro j t hj1 hj2 hj3
        by_cases hji : j = i
        · subst hji
          rw [h2 j (by omega), tcb_store_same _ _ _ hlt] at hj3
          cases hj3
          exact ⟨rfl, rfl⟩
        · exact h1 j t (by omega) (by omega) hj3
      · intro j hj
        rw [h2 j (by omega)]
        exact tcb_store_ne _ _ _ _ (by omega)

/-- How `uthread_init` gets to the state `w` it returns in. Before the reaper is created
the state is `wC`: thread 0 is the current thread, `UT_ON_CPU`, detachable and without
waiter, the reap queue is empty, and every other slot below `UTH_MAX_UTHREADS` has its
index as `ut_id` and is `UT_NO_STATE`. Then `uthread_create` for the reaper leaves `wD`,
and `w` is `wD` with the reaper's id stored. -/
theorem uthread_init_spec (cfg : Config) (reaper : Nat) (stack : Option Nat)
    (boot w : World) (h : uthread_init cfg reaper stack boot = .ret () w) :
    ∃ (wC wD : World) (tid : Int),
      wC.ut_curthr = some 0 ∧ wC.reap_queue = [] ∧
      wC.uthreads.length = boot.uthreads.length ∧
      (∃ t0, wC.tcb 0 = some t0 ∧ t0.ut_state = UT_ON_CPU ∧
        t0.ut_detach_state = UT_DETACHABLE ∧ t0.ut_waiter = none ∧
        (0 < cfg.UTH_MAX_UTHREADS → t0.ut_id = 0)) ∧
      (∀ i t, i < cfg.UTH_MAX_UTHREADS → i ≠ 0 → wC.tcb i = some t →
        t.ut_id = (i : Int) ∧ t.ut_state = UT_NO_STATE) ∧
      (uthread_create cfg (some wC.thr_id) reaper 0 none cfg.UTH_MAXPRIO stack wC).state
        = some wD ∧
      w = { wD with thr_id := tid } := by
  unfold uthread_init at h
  cases hl : uthread_init_loop cfg.UTH_MAX_UTHREADS 0 boot with
  | abort w2 => rw [hl] at h; cases h
  | undef f w2 => rw [hl] at h; cases h
  | ret v wL =>
    rw [hl] at h
    simp only [Result.bind] at h
    obtain ⟨hL1, _, hL3, _, _⟩ := uthread_init_loop_spec _ _ _ _ hl
    cases h0 : wL.tcb 0 with
    | none =>
      have : ({ init1 (uthread_sched_init cfg wL) with ut_curthr := some 0 } : World).tcb 0
          = none := h0
      simp only [create_first_thr, this] at h
      cases h
    | some t0 =>
      have h0' : ({ init1 (uthread_sched_init cfg wL) with ut_curthr := some 0 } : World).tcb 0
          = some t0 := h0
      have hlt0 := tcb_lt wL 0 t0 h0
      simp only [create_first_thr, h0', init2] at h
      generalize hwC : (({ init1 (uthread_sched_init cfg wL) with ut_curthr := some 0 }
        : World).store 0
          { t0 with
            ut_ctx := .captured
            ut_prio := cfg.UTH_MAXPRIO
            ut_errno := 0
            ut_has_exited := 0
            ut_no_preempt_count := 0
            ut_detach_state := UT_DETACHABLE
            ut_exit := 0
            ut_waiter := none
            ut_state := UT_ON_CPU }) = wC at h
      have hC0 : ∃ t, wC.tcb 0 = some t ∧ t.ut_state = UT_ON_CPU ∧
          t.ut_detach_state = UT_DETACHABLE ∧ t.ut_waiter = none ∧
          (0 < cfg.UTH_MAX_UTHREADS → t.ut_id = 0) := by
        rw [← hwC]
        refine ⟨_, tcb_store_same _ _ _ hlt0, rfl, rfl, rfl, fun hpos => ?_⟩
        exact (hL1 0 t0 (Nat.le_refl 0) (by omega) h0).1
      have hCj : ∀ i t, i < cfg.UTH_MAX_UTHREADS → i ≠ 0 → wC.tcb i = some t →
          t.ut_id = (i : Int) ∧ t.ut_state = UT_NO_STATE := by
        intro i t hi hne hti
        rw [← hwC, tcb_store_ne _ _ _ _ (Ne.symm hne)] at hti
        exact hL1 i t (Nat.zero_le i) (by omega) hti
      have hCc : wC.ut_curthr = some 0 := by rw [← hwC]; rfl
      have hCq : wC.reap_queue = [] := by rw [← hwC]; rfl
      have hCl : wC.uthreads.length = boot.uthreads.length := by
        rw [← hwC, store_length]; exact hL3
      cases hcr : uthread_create cfg (some wC.thr_id) reaper 0 none cfg.UTH_MAXPRIO stack wC
        with
      | abort w2 => rw [hcr] at h; cases h
      | undef f w2 => rw [hcr] at h; cases h
      | ret r wD =>
        rw [hcr] at h
        simp only [Result.bind, c_assert] at h
        split at h
        · cases h
          exact ⟨wC, wD, _, hCc, hCq, hCl, hC0, hCj, by rw [hcr]; rfl, rfl⟩
        · cases h

/-! ## C14: what gets on the reap queue -/

theorem tcb_congr (w w1 : World) (h : w1.uthreads = w.uthreads) (j : Nat) :
    w1.tcb j = w.tcb j := by
  simp [World.tcb, h]

/-- Filling a free slot with a thread that is detachable and has no waiter keeps
`detached_only`. -/
theorem detached_only_fill (cfg : Config) (w w1 : World) (k : Nat) (t t1 : uthread_t)
    (hinv : detached_only cfg w) (ht : w.tcb k = some t) (hs : t.ut_state = UT_NO_STATE)
    (hnew : t1.ut_state ≠ UT_NO_STATE →
      t1.ut_detach_state = UT_DETACHABLE ∧ t1.ut_waiter = none)
    (hu : w1.uthreads = (w.store k t1).uthreads) (hq : w1.reap_queue = w.reap_queue)
    (hc : w1.ut_curthr = w.ut_curthr) : detached_only cfg w1 := by
  obtain ⟨h1, ⟨c, cur, h2, h3, h4, h5⟩, h6⟩ := hinv
  have hck : k ≠ c := by
    intro hkc
    subst hkc
    rw [ht] at h3
    cases h3
    exact h4 hs
  refine ⟨by rw [hq, h1], ⟨c, cur, by rw [hc, h2], ?_, h4, h5⟩, ?_⟩
  · rw [tcb_congr _ _ hu, tcb_store_ne _ _ _ _ hck]
    exact h3
  · intro i x hi hx hlive
    rw [tcb_congr _ _ hu] at hx
    rcases tcb_store_cases _ _ _ _ _ hx with ⟨_, hxt⟩ | ⟨_, hx2⟩
    · subst hxt
      exact hnew hlive
    · exact h6 i x hi hx2 hlive

theorem detached_only_create (cfg : Config) (uidp : Option Int) (func : Nat) (arg1 : Int)
    (arg2 : Option Nat) (prio : Int) (stack : Option Nat) (w w1 : World)
    (hinv : detached_only cfg w)
    (h : (uthread_create cfg uidp func arg1 arg2 prio stack w).state = some w1) :
    detached_only cfg w1 := by
  rcases uthread_create_cases cfg uidp func arg1 arg2 prio stack w w1 h with
    h1 | ⟨k, t, _, ht, hs, h1 | ⟨stk, h1⟩⟩
  · rw [h1]; exact hinv
  · exact detached_only_fill cfg w w1 k t { t with ut_stack := none } hinv ht hs
      (fun hl => absurd hs hl) (by rw [h1]) (by rw [h1]; rfl) (by rw [h1]; rfl)
  · exact detached_only_fill cfg w w1 k t
        { t with
          ut_stack := some stk
          ut_ctx := .made stk cfg.UTH_STACK_SIZE func arg1 arg2
          ut_id := (k : Int)
          ut_state := UT_RUNNABLE
          ut_errno := 0
          ut_has_exited := 0
          ut_exit := 0
          ut_detach_state := UT_DETACHABLE
          ut_waiter := none
          ut_prio := -1 }
      hinv ht hs (fun _ => ⟨rfl, rfl⟩)
      (by rw [h1]; rfl) (by rw [h1]; rfl) (by rw [h1]; rfl)

theorem detached_only_exit (cfg : Config) (status : Int) (w w1 : World)
    (hinv : detached_only cfg w) (h : (uthread_exit cfg status w).state = some w1) :
    detached_only cfg w1 := by
  obtain ⟨h1, ⟨c, cur, h2, h3, h4, h5⟩, h6⟩ := hinv
  rw [uthread_exit_no_waiter cfg status w c cur h2 h3 h5] at h
  have hw1 := (Option.some.inj h).symm
  have hlt := tcb_lt w c cur h3
  have hu : w1.uthreads = (w.store c
      { cur with ut_has_exited := 1, ut_exit := status, ut_state := UT_WAIT }).uthreads := by
    rw [hw1]; rfl
  refine ⟨by rw [hw1]; exact h1,
    ⟨c, { cur with ut_has_exited := 1, ut_exit := status, ut_state := UT_WAIT },
      by rw [hw1]; exact h2, ?_, ?_, h5⟩, ?_⟩
  · rw [tcb_congr _ _ hu]
    exact tcb_store_same _ _ _ hlt
  · simp
  · intro i x hi hx hlive
    rw [tcb_congr _ _ hu] at hx
    rcases tcb_store_cases _ _ _ _ _ hx with ⟨hic, hxt⟩ | ⟨_, hx2⟩
    · subst hxt
      subst hic
      exact ⟨(h6 i cur hi h3 h4).1, h5⟩
    · exact h6 i x hi hx2 hlive

theorem detached_only_join (cfg : Config) (uid : Int) (return_value : Option Int)
    (w w1 : World) (hinv : detached_only cfg w)
    (h : (uthread_join cfg uid return_value w).state = some w1) : w1 = w := by
  obtain ⟨_, _, h6⟩ := hinv
  rcases uthread_join_cases cfg uid return_value w w1 h with
    h1 | ⟨thr, _, _, hhi, hthr, hj, _, hns, _⟩ | ⟨thr, hhi, hthr, hj, hz, _⟩
  · exact h1
  · obtain ⟨h0, ht⟩ := slot_some w uid thr hthr
    have := (h6 uid.toNat thr (by omega) ht hns).1
    rw [hj] at this
    cases this
  · obtain ⟨h0, ht⟩ := slot_some w uid thr hthr
    have := (h6 uid.toNat thr (by omega) ht (by rw [hz]; simp)).1
    rw [hj] at this
    cases this

theorem detached_only_init (cfg : Config) (reaper : Nat) (stack : Option Nat)
    (boot w : World) (h : uthread_init cfg reaper stack boot = .ret () w) :
    detached_only cfg w := by
  obtain ⟨wC, wD, tid, hc, hq, _, ⟨t0, h0, hs0, hd0, hw0, _⟩, hj, hcr, hw⟩ :=
    uthread_init_spec cfg reaper stack boot w h
  have hC : detached_only cfg wC := by
    refine ⟨hq, ⟨0, t0, hc, h0, by rw [hs0]; simp, hw0⟩, ?_⟩
    intro i t hi ht hlive
    by_cases hi0 : i = 0
    · subst hi0
      rw [h0] at ht
      cases ht
      exact ⟨hd0, hw0⟩
    · exact absurd (hj i t hi hi0 ht).2 hlive
  have hD := detached_only_create cfg _ _ _ _ _ _ wC wD hC hcr
  obtain ⟨d1, ⟨c, cur, d2, d3, d4, d5⟩, d6⟩ := hD
  rw [hw]
  exact ⟨d1, ⟨c, cur, d2, d3, d4, d5⟩, d6⟩

/-- In every state of a run the reap queue is empty: `uthread_create` makes every thread
detachable, a join on a detachable thread is refused, and an exit without waiter does not
call `make_reapable`. -/
theorem reachable_detached_only (cfg : Config) (w : World) (h : Reachable cfg w) :
    detached_only cfg w := by
  induction h with
  | init reaper stack boot w hi => exact detached_only_init cfg reaper stack boot w hi
  | create uidp func arg1 arg2 prio stack w w1 _ hs ih =>
    exact detached_only_create cfg uidp func arg1 arg2 prio stack w w1 ih hs
  | exit status w w1 _ hs ih => exact detached_only_exit cfg status w w1 ih hs
  | join uid rv w w1 _ hs ih =>
    rw [detached_only_join cfg uid rv w w1 ih hs]
    exact ih

/-- No state of a run has anything on the reap queue. -/
theorem reachable_reap_queue_empty (cfg : Config) (w : World) (h : Reachable cfg w) :
    w.reap_queue = [] :=
  (reachable_detached_only cfg w h).1

/-- Whenever `uthread_exit` puts its caller on the reap queue, the caller is `UT_WAIT`,
not `UT_ZOMBIE`, in the state the call ends in: the assignment
`ut_curthr->ut_state = UT_WAIT` comes after `make_reapable(ut_curthr)`. This holds for
every state and every choice of the header constants. -/
theorem uthread_exit_queued_is_waiting (cfg : Config) (status : Int) (w w1 : World)
    (c : Nat) (cur : uthread_t) (hc : w.ut_curthr = some c) (hcur : w.tcb c = some cur)
    (h : uthread_exit cfg status w = .abort w1)
    (hin : c ∈ w1.reap_queue) (hout : c ∉ w.reap_queue) :
    (w1.tcb c).map (fun t => t.ut_state) = some UT_WAIT := by
  have hlt := tcb_lt w c cur hcur
  rcases uthread_exit_spec cfg status w c cur hc hcur with
    ⟨_, _, he⟩ | ⟨w0, he, hu, _, _, _, _⟩
  · rw [he] at h
    cases h
    exact absurd hin hout
  · rw [he, uthread_switch_eq] at h
    cases h
    have hself : w0.tcb c = some
        { cur with ut_has_exited := 1, ut_exit := status, ut_state := UT_WAIT } := by
      simp only [World.tcb, hu]
      simp [hlt]
    have hsame : ({ w0 with diag := (w0.diag ++ ["UTHREADS: uthread_switch"]) ++
        ["no runnable threads"] } : World).tcb c = w0.tcb c := rfl
    rw [hsame, hself]
    rfl

/-- Filling a free slot with a thread that is not `UT_ON_CPU` keeps `one_on_cpu`. -/
theorem one_on_cpu_fill (w w1 : World) (k : Nat) (t t1 : uthread_t)
    (hinv : one_on_cpu w) (ht : w.tcb k = some t) (hs : t.ut_state = UT_NO_STATE)
    (hnew : t1.ut_state ≠ UT_ON_CPU)
    (hu : w1.uthreads = (w.store k t1).uthreads) (hc : w1.ut_curthr = w.ut_curthr) :
    one_on_cpu w1 := by
  obtain ⟨c, cur, h2, h3, h4, h5⟩ := hinv
  have hck : k ≠ c := by
    intro hkc
    subst hkc
    rw [ht] at h3
    cases h3
    rw [hs] at h4
    cases h4
  refine ⟨c, cur, by rw [hc, h2], ?_, h4, ?_⟩
  · rw [tcb_congr _ _ hu, tcb_store_ne _ _ _ _ hck]
    exact h3
  · intro i x hx hon
    rw [tcb_congr _ _ hu] at hx
    rcases tcb_store_cases _ _ _ _ _ hx with ⟨_, hxt⟩ | ⟨_, hx2⟩
    · subst hxt
      exact absurd hon hnew
    · exact h5 i x hx2 hon

theorem one_on_cpu_create (cfg : Config) (uidp : Option Int) (func : Nat) (arg1 : Int)
    (arg2 : Option Nat) (prio : Int) (stack : Option Nat) (w w1 : World)
    (hinv : one_on_cpu w)
    (h : (uthread_create cfg uidp func arg1 arg2 prio stack w).state = some w1) :
    one_on_cpu w1 := by
  rcases uthread_create_cases cfg uidp func arg1 arg2 prio stack w w1 h with
    h1 | ⟨k, t, _, ht, hs, h1 | ⟨stk, h1⟩⟩
  · rw [h1]; exact hinv
  · exact one_on_cpu_fill w w1 k t { t with ut_stack := none } hinv ht hs
      (by simp [hs]) (by rw [h1]) (by rw [h1]; rfl)
  · exact one_on_cpu_fill w w1 k t
        { t with
          ut_stack := some stk
          ut_ctx := .made stk cfg.UTH_STACK_SIZE func arg1 arg2
          ut_id := (k : Int)
          ut_state := UT_RUNNABLE
          ut_errno := 0
          ut_has_exited := 0
          ut_exit := 0
          ut_detach_state := UT_DETACHABLE
          ut_waiter := none
          ut_prio := -1 }
      hinv ht hs (by simp) (by rw [h1]; rfl) (by rw [h1]; rfl)

/-- A join that returns leaves the table and the current thread as they were. -/
theorem uthread_join_ret_frame (cfg : Config) (uid : Int) (return_value : Option Int)
    (r : Int × Option Int) (w w1 : World)
    (h : uthread_join cfg uid return_value w = .ret r w1) :
    w1.uthreads = w.uthreads ∧ w1.ut_curthr = w.ut_curthr := by
  have hs : (uthread_join cfg uid return_value w).state = some w1 := by rw [h]; rfl
  rcases uthread_join_cases cfg uid return_value w w1 hs with
    h1 | ⟨thr, x, c, hhi, hthr, hj, hwn, hns, hz, hc, hx, _⟩ | ⟨_, _, _, _, _, hu, hc, _⟩
  · rw [h1]; exact ⟨rfl, rfl⟩
  · rw [uthread_join_blocks cfg w uid return_value thr x c hhi hthr hj hwn hns hz hc hx] at h
    cases h
  · exact ⟨hu, hc⟩

theorem one_on_cpu_init (cfg : Config) (reaper : Nat) (stack : Option Nat)
    (boot w : World) (hlen : boot.uthreads.length = cfg.UTH_MAX_UTHREADS)
    (h : uthread_init cfg reaper stack boot = .ret () w) : one_on_cpu w := by
  obtain ⟨wC, wD, tid, hc, _, hl, ⟨t0, h0, hs0, _, _, _⟩, hj, hcr, hw⟩ :=
    uthread_init_spec cfg reaper stack boot w h
  have hC : one_on_cpu wC := by
    refine ⟨0, t0, hc, h0, hs0, ?_⟩
    intro i t ht hon
    by_contra hi0
    have hi : i < cfg.UTH_MAX_UTHREADS := by
      have := tcb_lt wC i t ht
      omega
    have := (hj i t hi hi0 ht).2
    rw [this] at hon
    cases hon
  have hD := one_on_cpu_create cfg _ _ _ _ _ _ wC wD hC hcr
  rw [hw]
  exact hD

/-- C17: in the state `uthread_init` returns in (on a table of `UTH_MAX_UTHREADS` slots),
and in every state reached from it by `uthread_create` calls, failing or not, and by
`uthread_join` calls that return `-1`, `ut_curthr` points to a TCB of the table that is
`UT_ON_CPU`, and no other TCB of the table is `UT_ON_CPU`. -/
theorem reachable_one_on_cpu (cfg : Config) (w : World) (h : ReachableNoSwitch cfg w) :
    ∃ c cur, w.ut_curthr = some c ∧ w.tcb c = some cur ∧ cur.ut_state = UT_ON_CPU ∧
      ∀ i t, w.tcb i = some t → t.ut_state = UT_ON_CPU → i = c := by
  have hinv : one_on_cpu w := by
    induction h with
    | init reaper stack boot w hlen hi => exact one_on_cpu_init cfg reaper stack boot w hlen hi
    | create uidp func arg1 arg2 prio stack w w1 _ hs ih =>
      exact one_on_cpu_create cfg uidp func arg1 arg2 prio stack w w1 ih hs
    | join_error uid rv rv1 w w1 _ hs ih =>
      obtain ⟨hu, hc⟩ := uthread_join_ret_frame cfg uid rv _ w w1 hs
      obtain ⟨c, cur, h2, h3, h4, h5⟩ := ih
      refine ⟨c, cur, by rw [hc, h2], by rw [tcb_congr _ _ hu]; exact h3, h4, ?_⟩
      intro i t ht hon
      rw [tcb_congr _ _ hu] at ht
      exact h5 i t ht hon
  exact hinv

theorem reachable_one_on_cpu_witness :
    ReachableNoSwitch cfg4 created4 ∧
    ∃ c cur, created4.ut_curthr = some c ∧ created4.tcb c = some cur ∧
      cur.ut_state = UT_ON_CPU ∧
      ∀ i t, created4.tcb i = some t → t.ut_state = UT_ON_CPU → i = c :=
  have hr : ReachableNoSwitch cfg4 created4 :=
    ReachableNoSwitch.create (some 9) 7 1 none 3 (some 9000) init4 created4
      (ReachableNoSwitch.init 100 (some 5000) boot4 init4 (by decide) rfl) rfl
  ⟨hr, reachable_one_on_cpu cfg4 created4 hr⟩

/-! ## C18: the thread ids -/

/-- Writing a TCB that carries its slot's index as `ut_id` keeps `ids_ok`. -/
theorem ids_ok_store (cfg : Config) (w w1 : World) (i : Nat) (t : uthread_t)
    (hid : ids_ok cfg w) (ht : i < cfg.UTH_MAX_UTHREADS → t.ut_id = (i : Int))
    (hu : w1.uthreads = (w.store i t).uthreads) : ids_ok cfg w1 := by
  intro j x hj hx
  rw [tcb_congr _ _ hu] at hx
  rcases tcb_store_cases _ _ _ _ _ hx with ⟨hji, hxt⟩ | ⟨_, hx2⟩
  · subst hxt
    subst hji
    exact ht hj
  · exact hid j x hj hx2

theorem ids_ok_congr (cfg : Config) (w w1 : World) (hid : ids_ok cfg w)
    (hu : w1.uthreads = w.uthreads) : ids_ok cfg w1 := by
  intro j x hj hx
  rw [tcb_congr _ _ hu] at hx
  exact hid j x hj hx

theorem ids_ok_create (cfg : Config) (uidp : Option Int) (func : Nat) (arg1 : Int)
    (arg2 : Option Nat) (prio : Int) (stack : Option Nat) (w w1 : World)
    (hid : ids_ok cfg w)
    (h : (uthread_create cfg uidp func arg1 arg2 prio stack w).state = some w1) :
    ids_ok cfg w1 := by
  rcases uthread_create_cases cfg uidp func arg1 arg2 prio stack w w1 h with
    h1 | ⟨k, t, hk, ht, _, h1 | ⟨stk, h1⟩⟩
  · rw [h1]; exact hid
  · exact ids_ok_store cfg w w1 k { t with ut_stack := none } hid
      (fun _ => hid k t hk ht) (by rw [h1])
  · exact ids_ok_store cfg w w1 k
        { t with
          ut_stack := some stk
          ut_ctx := .made stk cfg.UTH_STACK_SIZE func arg1 arg2
          ut_id := (k : Int)
          ut_state := UT_RUNNABLE
          ut_errno := 0
          ut_has_exited := 0
          ut_exit := 0
          ut_detach_state := UT_DETACHABLE
          ut_waiter := none
          ut_prio := -1 }
      hid (fun _ => rfl) (by rw [h1]; rfl)

theorem ids_ok_exit (cfg : Config) (status : Int) (w w1 : World) (hid : ids_ok cfg w)
    (h : (uthread_exit cfg status w).state = some w1) : ids_ok cfg w1 := by
  cases hc : w.ut_curthr with
  | none => simp [uthread_exit, hc, Result.state] at h
  | some c =>
    cases hcur : w.tcb c with
    | none => simp [uthread_exit, hc, hcur, Result.state] at h
    | some cur =>
      rcases uthread_exit_spec cfg status w c cur hc hcur with
        ⟨_, _, he⟩ | ⟨w0, he, hu, _⟩
      · rw [he] at h
        have hw1 := (Option.some.inj h).symm
        exact ids_ok_store cfg w w1 c { cur with ut_has_exited := 1, ut_exit := status } hid
          (fun hlt => hid c cur hlt hcur) (by rw [hw1])
      · rw [he, uthread_switch_eq] at h
        have hw1 := (Option.some.inj h).symm
        exact ids_ok_store cfg w w1 c
          { cur with ut_has_exited := 1, ut_exit := status, ut_state := UT_WAIT } hid
          (fun hlt => hid c cur hlt hcur) (by rw [hw1]; exact hu)

theorem ids_ok_join (cfg : Config) (uid : Int) (return_value : Option Int) (w w1 : World)
    (hid : ids_ok cfg w) (h : (uthread_join cfg uid return_value w).state = some w1) :
    ids_ok cfg w1 := by
  rcases uthread_join_cases cfg uid return_value w w1 h with
    h1 | ⟨thr, x, c, hhi, hthr, _, _, _, _, _, hx, h1⟩ | ⟨_, _, _, _, _, hu, _, _⟩
  · rw [h1]; exact hid
  · obtain ⟨h0, ht⟩ := slot_some w uid thr hthr
    have hA : ids_ok cfg (w.store uid.toNat { thr with ut_waiter := some c }) :=
      ids_ok_store cfg w _ uid.toNat { thr with ut_waiter := some c } hid
        (fun hlt => hid uid.toNat thr hlt ht) rfl
    exact ids_ok_store cfg _ w1 c { x with ut_state := UT_WAIT } hA
      (fun hlt => hA c x hlt hx) (by rw [h1])
  · exact ids_ok_congr cfg w w1 hid hu

theorem ids_ok_destroy (cfg : Config) (k : Nat) (w w1 : World) (hid : ids_ok cfg w)
    (h : (uthread_destroy k w).state = some w1) : ids_ok cfg w1 := by
  unfold uthread_destroy at h
  cases ht : w.tcb k with
  | none => simp [ht, Result.state] at h
  | some t =>
    by_cases hb : (t.ut_state == UT_ZOMBIE) = true
    · simp [ht, c_assert, hb, Result.bind, Result.state] at h
      exact ids_ok_store cfg w w1 k
        { t with ut_state := UT_NO_STATE, ut_has_exited := 1, ut_waiter := none } hid
        (fun hlt => hid k t hlt ht) (by rw [← h])
    · simp [ht, c_assert, hb, Result.bind, Result.state] at h
      rw [← h]
      exact hid

theorem ids_ok_init (cfg : Config) (reaper : Nat) (stack : Option Nat)
    (boot w : World) (h : uthread_init cfg reaper stack boot = .ret () w) :
    ids_ok cfg w := by
  obtain ⟨wC, wD, tid, _, _, _, ⟨t0, h0, _, _, _, hid0⟩, hj, hcr, hw⟩ :=
    uthread_init_spec cfg reaper stack boot w h
  have hC : ids_ok cfg wC := by
    intro i t hi ht
    by_cases hi0 : i = 0
    · subst hi0
      rw [h0] at ht
      cases ht
      exact hid0 hi
    · exact (hj i t hi hi0 ht).1
  have hD := ids_ok_create cfg _ _ _ _ _ _ wC wD hC hcr
  rw [hw]
  exact hD

/-- C18: `uthreads[i].ut_id == i` holds for every slot `i` in `[0, UTH_MAX_UTHREADS)` in
the state `uthread_init` returns in; and if it holds in a state `w`, it holds in the
state that `uthread_create`, `uthread_exit`, `uthread_join` and `uthread_destroy`,
called in `w` with any arguments, return in or stop the process in; and in `w`
`uthread_self` returns the table index of the current thread. -/
theorem ids_ok_preserved (cfg : Config) (w : World) (hid : ids_ok cfg w) :
    (∀ (reaper : Nat) (stack : Option Nat) (boot w0 : World),
      uthread_init cfg reaper stack boot = .ret () w0 → ids_ok cfg w0) ∧
    (∀ (uidp : Option Int) (func : Nat) (arg1 : Int) (arg2 : Option Nat) (prio : Int)
        (stack : Option Nat) (w1 : World),
      (uthread_create cfg uidp func arg1 arg2 prio stack w).state = some w1 →
      ids_ok cfg w1) ∧
    (∀ (status : Int) (w1 : World),
      (uthread_exit cfg status w).state = some w1 → ids_ok cfg w1) ∧
    (∀ (uid : Int) (return_value : Option Int) (w1 : World),
      (uthread_join cfg uid return_value w).state = some w1 → ids_ok cfg w1) ∧
    (∀ (k : Nat) (w1 : World), (uthread_destroy k w).state = some w1 → ids_ok cfg w1) ∧
    (∀ (c : Nat) (cur : uthread_t), w.ut_curthr = some c → c < cfg.UTH_MAX_UTHREADS →
      w.tcb c = some cur → uthread_self w = .ret (c : Int) w) := by
  refine ⟨fun reaper stack boot w0 h => ids_ok_init cfg reaper stack boot w0 h,
    fun uidp func arg1 arg2 prio stack w1 h =>
      ids_ok_create cfg uidp func arg1 arg2 prio stack w w1 hid h,
    fun status w1 h => ids_ok_exit cfg status w w1 hid h,
    fun uid rv w1 h => ids_ok_join cfg uid rv w w1 hid h,
    fun k w1 h => ids_ok_destroy cfg k w w1 hid h, ?_⟩
  intro c cur hc hlt hcur
  have hidc := hid c cur hlt hcur
  simp [uthread_self, hc, c_assert, Result.bind, hcur, hidc]

theorem ids_ok_preserved_witness :
    ids_ok cfg4 init4 ∧ ids_ok cfg4 created4 ∧ ids_ok cfg4 exited_main4 ∧
    uthread_self init4 = .ret 0 init4 :=
  have h0 : ids_ok cfg4 init4 := ids_ok_init cfg4 100 (some 5000) boot4 init4 rfl
  have h := ids_ok_preserved cfg4 init4 h0
  ⟨h.1 100 (some 5000) boot4 init4 rfl,
    h.2.1 (some 9) 7 1 none 3 (some 9000) created4 rfl,
    h.2.2.1 0 exited_main4 rfl,
    h.2.2.2.2.2 0 _ rfl (by decide) rfl⟩

end Uthread
